import Mathlib

/-!
Verification development for the `another-world-interpreter` repository.

The definitions below are a shallow embedding of the interpreter core
(`src/vm.cc`, `src/vm.h`), of the bytecode cursor (`src/intern.h`) and of
the video page operations and polygon rasterizer (`src/video.cc`,
`src/video.h`).  Machine integers are modelled as `Nat` (resp. `Int` for
signed quantities) with explicit reductions modulo `2 ^ w` at the points
where the C++ types impose them.  Functions that can hit `log_fatal`
(which throws `Panic`, caught only in `main`, hence unrecoverable
process termination) return `Except Fatal _`.
-/

namespace AW

/-- Reduction to the range of `uint8_t`. -/
def u8 (n : Nat) : Nat := n % 256

/-- Reduction to the range of `uint16_t`. -/
def u16 (n : Nat) : Nat := n % 65536

/-- Two's-complement representation of an `int32_t` value as a `Nat`
below `2 ^ 32` (used for the rasterizer's fixed-point accumulators). -/
def u32 (z : Int) : Nat := (z % 4294967296).toNat

/-- Value of `static_cast<int16_t>(x)` for a `uint16_t` value `x`
(modelled as a `Nat`). -/
def int16_of (n : Nat) : Int :=
  if n % 65536 < 32768 then (n % 65536 : Int) else (n % 65536 : Int) - 65536

/-- Narrowing of an `int` value to `int16_t` (two's-complement wrap). -/
def wrap16s (z : Int) : Int := (z + 32768) % 65536 - 32768

/-- `uint16_t` addition. -/
def add16 (a b : Nat) : Nat := (a + b) % 65536

/-- `uint16_t` subtraction (wrap-around). -/
def sub16 (a b : Nat) : Nat := (65536 + a % 65536 - b % 65536) % 65536

-- ---------------------------------------------------------------------------
-- VirtualMachine: data model (vm.h)
-- ---------------------------------------------------------------------------

/-- One slot of the 64-entry thread table (`VirtualMachine::Thread`). -/
structure Thread where
  thread_id : Nat
  current_pc : Nat
  requested_pc : Nat
  current_state : Nat
  requested_state : Nat
  opcode : Nat
  yield : Bool
deriving DecidableEq

/-- Fatal conditions: `log_fatal` throws `Panic`, which is caught only in
`main` (src/main.cc), so the run loop terminates irrecoverably. -/
inductive Fatal where
  | invalidOpcode (opcode pc : Nat)
  | stackOverflow
  | stackUnderflow
  | invalidCjmp (compare : Nat)
  | resetFailed (state : Nat)
deriving DecidableEq

/-- Externally visible side effects of opcode execution (calls into the
engine: video, audio, resources).  Recorded rather than interpreted. -/
inductive Effect where
  | loadResource (id : Nat)
  | selectPalette (pal : Nat)
  | selectPage (dst : Nat)
  | fillPage (dst col : Nat)
  | copyPage (dst src vscroll : Nat)
  | blitPage (src : Nat)
  | drawString (id x y color : Nat)
  | playSound (id channel volume frequency : Nat)
  | playMusic (id position delay : Nat)
  | drawPolygons (buffer offset : Nat) (x y : Int) (zoom : Nat)
deriving DecidableEq

/-- State of the virtual machine: the bytecode cursor (`ByteCode`: an
immutable byte buffer plus current offset), the 64 thread slots, the 256
16-bit registers, the 256-entry call stack with its top index, the
engine's current game-part id (read by the protection bypass in
`op_cjmp`), and the trace of engine calls.  The thread table, register
bank and stack array are total functions; the source arrays have 64, 256
and 256 entries and all defined behaviour stays below those bounds. -/
structure VMState where
  code : List Nat
  pos : Nat
  threads : Nat → Thread
  regs : Nat → Nat
  stackArr : Nat → Nat
  stackIdx : Nat
  partId : Nat
  effects : List Effect

/-- `ByteCode::fetchByte`: read one byte, advance the cursor. -/
def fetchByte (s : VMState) : Nat × VMState :=
  (u8 (s.code.getD s.pos 0), { s with pos := s.pos + 1 })

/-- `ByteCode::fetchWord`: read a big-endian 16-bit word, advance. -/
def fetchWord (s : VMState) : Nat × VMState :=
  let hi := u8 (s.code.getD s.pos 0)
  let lo := u8 (s.code.getD (s.pos + 1) 0)
  ((hi <<< 8) ||| lo, { s with pos := s.pos + 2 })

/-- `ByteCode::seek`. -/
def seek (s : VMState) (loc : Nat) : VMState := { s with pos := loc }

/-- Update one register (`_registers[i].u = v`). -/
def updReg (s : VMState) (i v : Nat) : VMState :=
  { s with regs := Function.update s.regs i v }

/-- Update one thread slot. -/
def updThread (s : VMState) (i : Nat) (th : Thread) : VMState :=
  { s with threads := Function.update s.threads i th }

/-- Append an engine-call effect. -/
def emit (s : VMState) (e : Effect) : VMState :=
  { s with effects := s.effects ++ [e] }

-- ---------------------------------------------------------------------------
-- VirtualMachine: thread management instructions (vm.cc)
-- ---------------------------------------------------------------------------

/-- Post-fetch action of `op_init`: `_threads[tid].requested_pc = imm`.
(The source array has 64 slots; all claims use `tid < 64`.) -/
def initCore (tid imm : Nat) (s : VMState) : VMState :=
  updThread s tid { s.threads tid with requested_pc := imm }

/-- `VirtualMachine::op_init` — `init thread:u08,u16` (opcode 0x08). -/
def op_init (s : VMState) : VMState :=
  let (tid, s) := fetchByte s
  let (imm, s) := fetchWord s
  initCore tid imm s

/-- `VirtualMachine::op_kill` — seek to 0xffff and yield. -/
def op_kill (tid : Nat) (s : VMState) : VMState :=
  updThread (seek s 0xffff) tid { (seek s 0xffff).threads tid with yield := true }

/-- `VirtualMachine::op_yield`. -/
def op_yield (tid : Nat) (s : VMState) : VMState :=
  updThread s tid { s.threads tid with yield := true }

/-- Post-fetch action of `op_reset`: the `switch(state)` with the
inclusive loop `for(index = begin; index <= end; ++index)` rendered
pointwise; an unknown state byte is fatal. -/
def resetCore (b e st : Nat) (s : VMState) : Except Fatal VMState :=
  if st = 0 ∨ st = 1 then
    .ok { s with threads := fun i =>
      if b ≤ i ∧ i ≤ e then { s.threads i with requested_state := st } else s.threads i }
  else if st = 2 then
    .ok { s with threads := fun i =>
      if b ≤ i ∧ i ≤ e then { s.threads i with requested_pc := 0xfffe } else s.threads i }
  else
    .error (.resetFailed st)

/-- `VirtualMachine::op_reset` — `reset begin:u08,end:u08,state:u08`. -/
def op_reset (s : VMState) : Except Fatal VMState :=
  let (b, s) := fetchByte s
  let (e, s) := fetchByte s
  let (st, s) := fetchByte s
  resetCore b e st s

-- ---------------------------------------------------------------------------
-- VirtualMachine: the per-tick scheduling pass (run_all_threads, 1st loop)
-- ---------------------------------------------------------------------------

/-- One slot of the deferred-apply scheduling pass at the start of a
tick: `current_state := requested_state`; a pending `requested_pc`
other than the 0xffff "no change" sentinel is applied to `current_pc`
(with 0xfffe meaning "kill": `current_pc := 0xffff`) and cleared. -/
def applyThread (th : Thread) : Thread :=
  let th := { th with current_state := th.requested_state }
  if th.requested_pc ≠ 0xffff then
    if th.requested_pc ≠ 0xfffe then
      { th with current_pc := th.requested_pc, requested_pc := 0xffff }
    else
      { th with current_pc := 0xffff, requested_pc := 0xffff }
  else th

/-- The scheduling pass over the whole thread table. -/
def applyRequests (ths : Nat → Thread) : Nat → Thread :=
  fun i => applyThread (ths i)

-- ---------------------------------------------------------------------------
-- VirtualMachine::setByteCode (vm.cc)
-- ---------------------------------------------------------------------------

/-- `VirtualMachine::setByteCode`: install a new script image (cursor
back to offset 0), reset the thread table (all slots inactive except
thread 0 at pc 0), run `reset_registers` (which ORs every register with
zero — a no-op: register contents survive a part transition) and clear
the call stack. -/
def setByteCode (bytecode : List Nat) (s : VMState) : VMState :=
  let afterThreads : Nat → Thread := fun i =>
    let th := { s.threads i with
      current_pc := 0xffff, requested_pc := 0xffff,
      current_state := 0, requested_state := 0,
      opcode := 0x3f, yield := false }
    if i = 0 then { th with current_pc := 0x0000, requested_pc := 0xffff } else th
  { s with
    code := bytecode
    pos := 0
    threads := afterThreads
    regs := fun i => s.regs i ||| 0
    stackArr := fun i => s.stackArr i &&& 0
    stackIdx := 0 }

-- ---------------------------------------------------------------------------
-- VirtualMachine: load/store, arithmetic and logic instructions (vm.cc)
-- ---------------------------------------------------------------------------

/-- `op_movi` — `movi [$x],u16`. -/
def op_movi (s : VMState) : VMState :=
  let (dst, s) := fetchByte s
  let (imm, s) := fetchWord s
  updReg s dst imm

/-- `op_movr` — `movr [$x],[$y]`. -/
def op_movr (s : VMState) : VMState :=
  let (dst, s) := fetchByte s
  let (src, s) := fetchByte s
  updReg s dst (s.regs src)

/-- `op_addr` — `addr [$x],[$y]` (`uint16_t` wrap-around). -/
def op_addr (s : VMState) : VMState :=
  let (dst, s) := fetchByte s
  let (src, s) := fetchByte s
  updReg s dst (add16 (s.regs dst) (s.regs src))

/-- `op_addi` — `addi [$x],u16`. -/
def op_addi (s : VMState) : VMState :=
  let (dst, s) := fetchByte s
  let (imm, s) := fetchWord s
  updReg s dst (add16 (s.regs dst) imm)

/-- `op_subr` — `subr [$x],[$y]`. -/
def op_subr (s : VMState) : VMState :=
  let (dst, s) := fetchByte s
  let (src, s) := fetchByte s
  updReg s dst (sub16 (s.regs dst) (s.regs src))

/-- `op_andi` — `andi [$x],u16`. -/
def op_andi (s : VMState) : VMState :=
  let (dst, s) := fetchByte s
  let (imm, s) := fetchWord s
  updReg s dst (s.regs dst &&& imm)

/-- `op_iori` — `iori [$x],u16`. -/
def op_iori (s : VMState) : VMState :=
  let (dst, s) := fetchByte s
  let (imm, s) := fetchWord s
  updReg s dst (s.regs dst ||| imm)

/-- `op_shli` — `shli [$x],u16` (result truncated to `uint16_t`). -/
def op_shli (s : VMState) : VMState :=
  let (dst, s) := fetchByte s
  let (imm, s) := fetchWord s
  updReg s dst (u16 (s.regs dst <<< imm))

/-- `op_shri` — `shri [$x],u16`. -/
def op_shri (s : VMState) : VMState :=
  let (dst, s) := fetchByte s
  let (imm, s) := fetchWord s
  updReg s dst (s.regs dst >>> imm)

-- ---------------------------------------------------------------------------
-- VirtualMachine: jump and call instructions (vm.cc)
-- ---------------------------------------------------------------------------

/-- `op_jump` — `jump u16`. -/
def op_jump (s : VMState) : VMState :=
  let (loc, s) := fetchWord s
  seek s loc

/-- Post-decode action of `op_cjmp`.  `compare` is the low three bits of
the variant byte, `op1`/`op2` the two `uint16_t` operands, `rg1`/`rg2`
the register numbers involved (`rg2` stays 0 for the immediate operand
forms, as in the source), `loc` the jump target.  The leading special
case is the `BYPASS_PROTECTION` branch, enabled in `config.h`: inside
game part 0 (`GAME_PART0 = 0x3e80`) an `eq,[$29],[$1e]` comparison
copies the four protection symbols and two counters and jumps
unconditionally.  The six predicates compare the operands as
`int16_t`; any other predicate code is fatal.  The register writes of
the bypass (copy the four protection symbols and set the two counters)
are factored into `cjmpBypass`. -/
def cjmpBypass (s : VMState) : VMState :=
  let s := updReg s 0x29 (s.regs 0x1e)
  let s := updReg s 0x2a (s.regs 0x1f)
  let s := updReg s 0x2b (s.regs 0x20)
  let s := updReg s 0x2c (s.regs 0x21)
  let s := updReg s 0x32 0x06
  let s := updReg s 0x64 0x14
  s

/-- Post-decode action of `op_cjmp` (see the comment above). -/
def cjmpCore (compare rg1 rg2 op1 op2 loc : Nat) (s : VMState) : Except Fatal VMState :=
  if compare = 0 ∧ rg1 = 0x29 ∧ rg2 = 0x1e ∧ s.partId = 0x3e80 then
    .ok (seek (cjmpBypass s) loc)
  else if compare = 0 then
    .ok (if int16_of op1 = int16_of op2 then seek s loc else s)
  else if compare = 1 then
    .ok (if int16_of op1 ≠ int16_of op2 then seek s loc else s)
  else if compare = 2 then
    .ok (if int16_of op1 > int16_of op2 then seek s loc else s)
  else if compare = 3 then
    .ok (if int16_of op1 ≥ int16_of op2 then seek s loc else s)
  else if compare = 4 then
    .ok (if int16_of op1 < int16_of op2 then seek s loc else s)
  else if compare = 5 then
    .ok (if int16_of op1 ≤ int16_of op2 then seek s loc else s)
  else
    .error (.invalidCjmp compare)

/-- `op_cjmp` — `cjmp cond:u08,$[x],y` (opcode 0x0a).  Bit 7 of the
variant byte selects the register-vs-register form, else bit 6 the
immediate-word form, else the immediate-byte form. -/
def op_cjmp (s : VMState) : Except Fatal VMState :=
  let (variant, s) := fetchByte s
  let compare := variant &&& 0x07
  let (rg1, s) := fetchByte s
  let op1 := s.regs rg1
  if variant &&& 0x80 ≠ 0 then
    let (rg2, s) := fetchByte s
    let op2 := s.regs rg2
    let (loc, s) := fetchWord s
    cjmpCore compare rg1 rg2 op1 op2 loc s
  else if variant &&& 0x40 ≠ 0 then
    let (op2, s) := fetchWord s
    let (loc, s) := fetchWord s
    cjmpCore compare rg1 0 op1 op2 loc s
  else
    let (op2, s) := fetchByte s
    let (loc, s) := fetchWord s
    cjmpCore compare rg1 0 op1 op2 loc s

/-- `op_djnz` — `djnz $[x],u16`: decrement (`uint16_t` wrap) and jump
if the result is non-zero. -/
def op_djnz (s : VMState) : VMState :=
  let (dst, s) := fetchByte s
  let (imm, s) := fetchWord s
  let v := sub16 (s.regs dst) 1
  let s := updReg s dst v
  if v ≠ 0 then seek s imm else s

/-- `op_call` — `call u16` (opcode 0x04): the overflow check precedes
the operand fetch and the push, so a full stack aborts before any
mutation; otherwise the offset just past the operand is pushed and the
cursor seeks to the target. -/
def op_call (s : VMState) : Except Fatal VMState :=
  if 256 ≤ s.stackIdx then .error .stackOverflow
  else
    let (loc, s) := fetchWord s
    .ok { s with
      stackArr := Function.update s.stackArr s.stackIdx s.pos
      stackIdx := s.stackIdx + 1
      pos := loc }

/-- `op_ret` (opcode 0x05): an empty stack aborts before any mutation;
otherwise pop one return address and seek to it. -/
def op_ret (s : VMState) : Except Fatal VMState :=
  if s.stackIdx = 0 then .error .stackUnderflow
  else .ok { s with
    stackIdx := s.stackIdx - 1
    pos := s.stackArr (s.stackIdx - 1) }

-- ---------------------------------------------------------------------------
-- VirtualMachine: resource / presentation instructions (vm.cc)
-- ---------------------------------------------------------------------------

/-- `op_loadres` — `loadres id:u16`. -/
def op_loadres (s : VMState) : VMState :=
  let (id, s) := fetchWord s
  emit s (.loadResource id)

/-- `op_palette` — `palette pal:u16` (the engine receives the high
byte). -/
def op_palette (s : VMState) : VMState :=
  let (palette, s) := fetchWord s
  emit s (.selectPalette (palette >>> 8))

/-- `op_page` — `page src:u08`. -/
def op_page (s : VMState) : VMState :=
  let (dst, s) := fetchByte s
  emit s (.selectPage dst)

/-- `op_fill` — `fill dst:u08,col:u08`. -/
def op_fill (s : VMState) : VMState :=
  let (dst, s) := fetchByte s
  let (col, s) := fetchByte s
  emit s (.fillPage dst col)

/-- `op_copy` — `copy dst:u08,src:u08`; the vertical scroll comes from
register 0xf9 (`VM_VARIABLE_SCROLL_Y`). -/
def op_copy (s : VMState) : VMState :=
  let (src, s) := fetchByte s
  let (dst, s) := fetchByte s
  emit s (.copyPage dst src (s.regs 0xf9))

/-- `op_blit` — `blit src:u08`. -/
def op_blit (s : VMState) : VMState :=
  let (src, s) := fetchByte s
  emit s (.blitPage src)

/-- `op_print` — `print string:u16,x:u08,y:u08,color:u08`. -/
def op_print (s : VMState) : VMState :=
  let (id, s) := fetchWord s
  let (x, s) := fetchByte s
  let (y, s) := fetchByte s
  let (color, s) := fetchByte s
  emit s (.drawString id x y color)

/-- `op_sound` — `sound id:u16,frequency:u08,volume:u08,channel:u08`. -/
def op_sound (s : VMState) : VMState :=
  let (id, s) := fetchWord s
  let (frequency, s) := fetchByte s
  let (volume, s) := fetchByte s
  let (channel, s) := fetchByte s
  emit s (.playSound id channel volume frequency)

/-- `op_music` — `music id:u16,delay:u16,position:u08`. -/
def op_music (s : VMState) : VMState :=
  let (id, s) := fetchWord s
  let (delay, s) := fetchWord s
  let (position, s) := fetchByte s
  emit s (.playMusic id position delay)

-- ---------------------------------------------------------------------------
-- VirtualMachine: polygon super-opcodes (vm.cc)
-- ---------------------------------------------------------------------------

/-- `get_offset` in `op_poly1`: a fetched word times two, `uint16_t`. -/
def poly1_offset (s : VMState) : Nat × VMState :=
  let (w, s) := fetchWord s
  (u16 (w * 2), s)

/-- `get_poly_x` in `op_poly1`: opcode bit 5 selects byte-immediate
(bit 4 adding 0x100), else bit 4 selects a register operand, else a
two-byte immediate. -/
def poly1_x (opcode : Nat) (s : VMState) : Nat × VMState :=
  let (b, s) := fetchByte s
  if opcode &&& 0x20 ≠ 0 then
    if opcode &&& 0x10 ≠ 0 then (b + 0x100, s) else (b, s)
  else
    if opcode &&& 0x10 ≠ 0 then (s.regs b, s)
    else
      let (lo, s) := fetchByte s
      ((b <<< 8) ||| lo, s)

/-- `get_poly_y` in `op_poly1`: like `get_poly_x` with bits 3/2 (and a
vacuous `+ 0x000` in the both-bits case). -/
def poly1_y (opcode : Nat) (s : VMState) : Nat × VMState :=
  let (c, s) := fetchByte s
  if opcode &&& 0x08 ≠ 0 then
    if opcode &&& 0x04 ≠ 0 then (c + 0x000, s) else (c, s)
  else
    if opcode &&& 0x04 ≠ 0 then (s.regs c, s)
    else
      let (lo, s) := fetchByte s
      ((c <<< 8) ||| lo, s)

/-- `get_zoom` in `op_poly1`: returns the zoom factor and the polygon
data index (2 when both low bits are set, else 1). -/
def poly1_zoom (opcode : Nat) (s : VMState) : Nat × Nat × VMState :=
  if opcode &&& 0x02 ≠ 0 then
    if opcode &&& 0x01 ≠ 0 then (0x40, 2, s)
    else
      let (z, s) := fetchByte s
      (z, 1, s)
  else
    if opcode &&& 0x01 ≠ 0 then
      let (r, s) := fetchByte s
      (s.regs r, 1, s)
    else (0x40, 1, s)

/-- `op_poly1` (opcodes 0x40–0x7f): the low six bits of the opcode are
flag fields selecting the operand encodings for position and zoom;
the helpers run in source evaluation order. -/
def op_poly1 (opcode : Nat) (s : VMState) : VMState :=
  let offset := (poly1_offset s).1
  let s1 := (poly1_offset s).2
  let polyX := (poly1_x opcode s1).1
  let s2 := (poly1_x opcode s1).2
  let polyY := (poly1_y opcode s2).1
  let s3 := (poly1_y opcode s2).2
  let zoom := (poly1_zoom opcode s3).1
  let dataIndex := (poly1_zoom opcode s3).2.1
  let s4 := (poly1_zoom opcode s3).2.2
  emit s4 (.drawPolygons dataIndex offset (int16_of polyX) (int16_of polyY) zoom)

/-- `op_poly2` (opcodes 0x80–0xff): the opcode byte is the offset's
high byte; `get_point` clamps y to 199 and shifts x by the overflow. -/
def op_poly2 (opcode : Nat) (s : VMState) : VMState :=
  let (lsb, s) := fetchByte s
  let offset := u16 (((opcode <<< 8) ||| lsb) * 2)
  let (bx, s) := fetchByte s
  let (cy, s) := fetchByte s
  let x := int16_of bx
  let y := int16_of cy
  let h := y - 199
  let (x, y) := if h > 0 then (x + h, (199 : Int)) else (x, y)
  emit s (.drawPolygons 1 offset x y 0x40)

/-- `op_invalid`: `log_fatal` with the failing opcode and program
counter. -/
def op_invalid (tid opcode : Nat) (s : VMState) : Except Fatal VMState :=
  .error (.invalidOpcode opcode (s.threads tid).current_pc)

-- ---------------------------------------------------------------------------
-- VirtualMachine: fetch-decode-execute loop (run_one_thread, vm.cc)
-- ---------------------------------------------------------------------------

/-- The handler classes of the dispatch switch in `run_one_thread`. -/
inductive Handler where
  | movi | movr | addr | addi | call | ret | yieldOp | jump | init | djnz
  | cjmp | palette | reset | page | fill | copy | blit | kill | print
  | subr | andi | iori | shli | shri | sound | loadres | music
  | invalid | poly1 | poly2
deriving DecidableEq

/-- The opcode dispatch of `run_one_thread`: fixed single-byte opcodes
0x00–0x1a, the invalid range `0x1b ... 0x3f`, the two super-opcode
ranges `0x40 ... 0x7f` and `0x80 ... 0xff`, and the (for a byte
unreachable) `default` branch, which also goes to `op_invalid`. -/
def dispatch (opcode : Nat) : Handler :=
  if opcode = 0x00 then .movi
  else if opcode = 0x01 then .movr
  else if opcode = 0x02 then .addr
  else if opcode = 0x03 then .addi
  else if opcode = 0x04 then .call
  else if opcode = 0x05 then .ret
  else if opcode = 0x06 then .yieldOp
  else if opcode = 0x07 then .jump
  else if opcode = 0x08 then .init
  else if opcode = 0x09 then .djnz
  else if opcode = 0x0a then .cjmp
  else if opcode = 0x0b then .palette
  else if opcode = 0x0c then .reset
  else if opcode = 0x0d then .page
  else if opcode = 0x0e then .fill
  else if opcode = 0x0f then .copy
  else if opcode = 0x10 then .blit
  else if opcode = 0x11 then .kill
  else if opcode = 0x12 then .print
  else if opcode = 0x13 then .subr
  else if opcode = 0x14 then .andi
  else if opcode = 0x15 then .iori
  else if opcode = 0x16 then .shli
  else if opcode = 0x17 then .shri
  else if opcode = 0x18 then .sound
  else if opcode = 0x19 then .loadres
  else if opcode = 0x1a then .music
  else if 0x1b ≤ opcode ∧ opcode ≤ 0x3f then .invalid
  else if 0x40 ≤ opcode ∧ opcode ≤ 0x7f then .poly1
  else if 0x80 ≤ opcode ∧ opcode ≤ 0xff then .poly2
  else .invalid

/-- Execute one decoded instruction for the thread `tid`. -/
def execInstr (tid opcode : Nat) (s : VMState) : Except Fatal VMState :=
  match dispatch opcode with
  | .movi => .ok (op_movi s)
  | .movr => .ok (op_movr s)
  | .addr => .ok (op_addr s)
  | .addi => .ok (op_addi s)
  | .call => op_call s
  | .ret => op_ret s
  | .yieldOp => .ok (op_yield tid s)
  | .jump => .ok (op_jump s)
  | .init => .ok (op_init s)
  | .djnz => .ok (op_djnz s)
  | .cjmp => op_cjmp s
  | .palette => .ok (op_palette s)
  | .reset => op_reset s
  | .page => .ok (op_page s)
  | .fill => .ok (op_fill s)
  | .copy => .ok (op_copy s)
  | .blit => .ok (op_blit s)
  | .kill => .ok (op_kill tid s)
  | .print => .ok (op_print s)
  | .subr => .ok (op_subr s)
  | .andi => .ok (op_andi s)
  | .iori => .ok (op_iori s)
  | .shli => .ok (op_shli s)
  | .shri => .ok (op_shri s)
  | .sound => .ok (op_sound s)
  | .loadres => .ok (op_loadres s)
  | .music => .ok (op_music s)
  | .invalid => op_invalid tid opcode s
  | .poly1 => .ok (op_poly1 opcode s)
  | .poly2 => .ok (op_poly2 opcode s)

/-- One iteration of the do-while body in `run_one_thread`: fetch the
opcode byte into `thread.opcode`, dispatch, then refresh the thread's
`current_pc` (a `uint16_t`) from the cursor offset. -/
def runStep (tid : Nat) (s : VMState) : Except Fatal VMState :=
  let (b, s) := fetchByte s
  let s := updThread s tid { s.threads tid with opcode := b }
  match execInstr tid b s with
  | .error e => .error e
  | .ok s => .ok (updThread s tid { s.threads tid with current_pc := u16 s.pos })

/-- The do-while loop of `run_one_thread`, with explicit fuel (the
source loop runs until the thread yields or a fatal error unwinds). -/
def runLoop (fuel tid : Nat) (s : VMState) : Except Fatal VMState :=
  match fuel with
  | 0 => .ok s
  | fuel + 1 =>
    match runStep tid s with
    | .error e => .error e
    | .ok s => if (s.threads tid).yield then .ok s else runLoop fuel tid s

/-- `run_one_thread`: clear opcode/yield, skip inactive (pc ≥ 0xffff)
or paused (state ≠ 0) threads, otherwise seek to `current_pc` and run
the fetch-decode-execute loop; finally clear opcode/yield again. -/
def runOneThread (fuel tid : Nat) (s : VMState) : Except Fatal VMState :=
  let th := { s.threads tid with opcode := 0x3f, yield := false }
  let s := updThread s tid th
  if 0xffff ≤ th.current_pc ∨ th.current_state ≠ 0 then .ok s
  else
    match runLoop fuel tid (seek s th.current_pc) with
    | .error e => .error e
    | .ok s => .ok (updThread s tid { s.threads tid with opcode := 0x3f, yield := false })

/-- Run threads `tid`, `tid+1`, … (`n` of them) in ascending order. -/
def runThreadsAux (fuel : Nat) : Nat → Nat → VMState → Except Fatal VMState
  | 0, _, s => .ok s
  | n + 1, tid, s =>
    match runOneThread fuel tid s with
    | .error e => .error e
    | .ok s => runThreadsAux fuel n (tid + 1) s

/-- `run_all_threads`: the deferred-apply scheduling pass over all 64
slots, then the execution pass in ascending thread-id order. -/
def runAllThreads (fuel : Nat) (s : VMState) : Except Fatal VMState :=
  runThreadsAux fuel 64 0 { s with threads := applyRequests s.threads }

-- ---------------------------------------------------------------------------
-- Video: framebuffer pages and the polygon rasterizer (video.cc, video.h)
-- ---------------------------------------------------------------------------

/-- A framebuffer page: 320×200 pixels at 4 bits per pixel, two pixels
per byte, 160 bytes per line — 32000 bytes, byte-addressed. -/
abbrev Page := Nat → Nat

/-- `Point` (intern.h): a pair of `int16_t` coordinates. -/
structure Pt where
  x : Int
  y : Int
deriving DecidableEq

/-- `Polygon` (intern.h): bounding box, point count and point list (the
source stores up to 50 points in a fixed array). -/
structure Polygon where
  bbw : Nat
  bbh : Nat
  count : Nat
  points : List Pt
deriving DecidableEq

/-- Store one byte into a page. -/
def writeByte (p : Page) (o v : Nat) : Page := Function.update p o v

/-- Store `n` copies of the byte `v` starting at offset `start`
(the middle loop of the line renderers). -/
def writeRun (p : Page) (start n v : Nat) : Page :=
  fun o => if start ≤ o ∧ o < start + n then v else p o

/-- Copy `n` bytes from page `q` into `p` at the same offsets
(the middle loop of `render_line_vcopy`). -/
def copyRun (p q : Page) (start n : Nat) : Page :=
  fun o => if start ≤ o ∧ o < start + n then q o else p o

/-- OR the pattern 0x88 into `n` bytes (middle loop of
`render_line_blend`). -/
def orRun (p : Page) (start n : Nat) : Page :=
  fun o => if start ≤ o ∧ o < start + n then p o ||| 0x88 else p o

/-- `render_line_plain`: a solid-color horizontal span from pixel `x1`
to pixel `x2` on scanline `yl`, with masked partial-byte writes at an
odd left edge and an even right edge.  `offset` and `width` are
`uint16_t` in the source; all callers establish `0 ≤ x1 ≤ x2 ≤ 319`
and `0 ≤ yl ≤ 199`, on which domain no wrap-around occurs. -/
def renderLinePlain (dst src : Page) (x1 x2 yl : Int) (color : Nat) : Page :=
  let offset := (yl * 160 + x1 / 2).toNat
  let w0 := ((x2 / 2 - x1 / 2 + 1) % 65536).toNat
  let w1 := if x1 % 2 ≠ 0 then (w0 + 65535) % 65536 else w0
  let w2 := if x2 % 2 = 0 then (w1 + 65535) % 65536 else w1
  let color2 := ((color &&& 0x0f) <<< 4) ||| (color &&& 0x0f)
  let p1 := if x1 % 2 ≠ 0 then
      writeByte dst offset ((dst offset &&& 0xf0) ||| (color2 &&& 0x0f))
    else dst
  let ptr := if x1 % 2 ≠ 0 then offset + 1 else offset
  let p2 := writeRun p1 ptr w2 color2
  if x2 % 2 = 0 then
    writeByte p2 (ptr + w2) ((p2 (ptr + w2) &&& 0x0f) ||| (color2 &&& 0xf0))
  else p2

/-- `render_line_vcopy`: copy the span from the source page `src`
(page 0) instead of painting a color. -/
def renderLineVcopy (dst src : Page) (x1 x2 yl : Int) (color : Nat) : Page :=
  let offset := (yl * 160 + x1 / 2).toNat
  let w0 := ((x2 / 2 - x1 / 2 + 1) % 65536).toNat
  let w1 := if x1 % 2 ≠ 0 then (w0 + 65535) % 65536 else w0
  let w2 := if x2 % 2 = 0 then (w1 + 65535) % 65536 else w1
  let p1 := if x1 % 2 ≠ 0 then
      writeByte dst offset ((dst offset &&& 0xf0) ||| (src offset &&& 0x0f))
    else dst
  let ptr := if x1 % 2 ≠ 0 then offset + 1 else offset
  let p2 := copyRun p1 src ptr w2
  if x2 % 2 = 0 then
    writeByte p2 (ptr + w2) ((p2 (ptr + w2) &&& 0x0f) ||| (src (ptr + w2) &&& 0xf0))
  else p2

/-- `render_line_blend`: OR a fixed bit pattern into the span to get a
translucency effect (bit 3 of each nibble). -/
def renderLineBlend (dst src : Page) (x1 x2 yl : Int) (color : Nat) : Page :=
  let offset := (yl * 160 + x1 / 2).toNat
  let w0 := ((x2 / 2 - x1 / 2 + 1) % 65536).toNat
  let w1 := if x1 % 2 ≠ 0 then (w0 + 65535) % 65536 else w0
  let w2 := if x2 % 2 = 0 then (w1 + 65535) % 65536 else w1
  let p1 := if x1 % 2 ≠ 0 then
      writeByte dst offset ((dst offset &&& 0xf7) ||| 0x08)
    else dst
  let ptr := if x1 % 2 ≠ 0 then offset + 1 else offset
  let p2 := orRun p1 ptr w2
  if x2 % 2 = 0 then
    writeByte p2 (ptr + w2) ((p2 (ptr + w2) &&& 0x7f) ||| 0x80)
  else p2

/-- `get_line_proc` in `renderPolygon`: color < 0x10 paints plain,
color > 0x10 copies from page 0, color = 0x10 blends. -/
def renderLine (dst src : Page) (x1 x2 yl : Int) (color : Nat) : Page :=
  if color < 0x10 then renderLinePlain dst src x1 x2 yl color
  else if 0x10 < color then renderLineVcopy dst src x1 x2 yl color
  else renderLineBlend dst src x1 x2 yl color

/-- `draw_point`: reject coordinates outside the visible 320×200
region, else render a one-pixel span. -/
def drawPoint (dst src : Page) (xp yp : Int) (color : Nat) : Page :=
  if xp > 319 ∨ xp < 0 ∨ yp > 199 ∨ yp < 0 then dst
  else renderLine dst src xp xp yp color

/-- `draw_line`: order the endpoints, reject spans fully outside the
visible region, clamp the ends to [0, 319], then render. -/
def drawLine (dst src : Page) (a b yl : Int) (color : Nat) : Page :=
  let x1 := if a > b then b else a
  let x2 := if a > b then a else b
  if x1 > 319 ∨ x2 < 0 ∨ yl > 199 ∨ yl < 0 then dst
  else
    let x1 := if x1 < 0 then 0 else x1
    let x2 := if x2 > 319 then 319 else x2
    renderLine dst src x1 x2 yl color

/-- The `_interpolate` table built in the `Video` constructor:
0x4000 at index 0, `0x4000 / index` otherwise.  The source array has
0x400 entries; indices beyond that are outside defined behaviour and
the formula is extended. -/
def interpolate (index : Nat) : Nat :=
  if index = 0 then 0x4000 else 0x4000 / index

/-- `calc_step`: returns the fixed-point step `dx * interpolate[dy] * 4`
as a two's-complement `int32_t` (a `Nat` below `2 ^ 32`), together with
the signed `dy` it stores through its out-parameter.  A negative table
index is outside the source's defined behaviour; `Int.toNat` sends it
to index 0. -/
def calcStep (p1 p2 : Pt) : Nat × Int :=
  let dx := p2.x - p1.x
  let dy := p2.y - p1.y
  (u32 (dx * (interpolate dy.toNat : Int) * 4), dy)

/-- The inner scanline loop of `fill_polygon` (`do { … } while(--dy)`,
entered only when dy ≠ 0): draw one clipped horizontal span per
scanline while stepping the two fixed-point edge accumulators.  The
accumulators are `int32_t` (two's complement, `xa >> 16` is the
sign-extended high word) and `yl` is narrowed to `int16_t` at the
`draw_line` call. -/
def scanLoop (src : Page) (color : Nat) (step1 step2 : Nat) :
    Nat → Page → Nat → Nat → Int → Page × Nat × Nat × Int
  | 0, dst, xa, xb, yl => (dst, xa, xb, yl)
  | n + 1, dst, xa, xb, yl =>
    let dst := drawLine dst src (int16_of (xa >>> 16)) (int16_of (xb >>> 16)) (wrap16s yl) color
    scanLoop src color step1 step2 n dst
      ((xa + step1) % 4294967296) ((xb + step2) % 4294967296) (yl + 1)

/-- `uint8_t` decrement applied twice (`--count; --count;`). -/
def dec2 (count : Nat) : Nat := ((count + 255) % 256 + 255) % 256

/-- The zipper edge-pair walk of `fill_polygon`: `p1` ascends from the
front of the point list, `p2` descends from the back, `count` drops by
two per round.  `fuel` bounds the recursion; for the even point counts
enforced by the decoder's assertion the loop runs exactly `count / 2`
rounds, so `fuel = count` suffices. -/
def fillLoop (src : Page) (color : Nat) (pts : List Pt) :
    Nat → Nat → Nat → Nat → Nat → Nat → Int → Page → Page
  | 0, _, _, _, _, _, _, dst => dst
  | fuel + 1, count, i, j, xa, xb, yl, dst =>
    if count = 0 then dst
    else
      let (step1, _) := calcStep (pts.getD i ⟨0, 0⟩) (pts.getD (i + 1) ⟨0, 0⟩)
      let (step2, dy) := calcStep (pts.getD j ⟨0, 0⟩) (pts.getD (j - 1) ⟨0, 0⟩)
      let xa := (xa &&& 0xffff0000) ||| 0x8000
      let xb := (xb &&& 0xffff0000) ||| 0x7fff
      if dy = 0 then
        fillLoop src color pts fuel (dec2 count) (i + 1) (j - 1)
          ((xa + step1) % 4294967296) ((xb + step2) % 4294967296) yl dst
      else
        let r := scanLoop src color step1 step2 (u32 dy) dst xa xb yl
        fillLoop src color pts fuel (dec2 count) (i + 1) (j - 1) r.2.1 r.2.2.1 r.2.2.2 r.1

/-- `fill_polygon` in `Video::renderPolygon`: clip the zoomed bounding
box (centred on the target position, `int16_t` arithmetic) against the
visible region, handle the single-point degenerate case (point count 4
and a bounding box that collapses to one pixel in an axis), otherwise
run the zipper fill.  `dst` is the working page `_page0`, `src` is
`_pages[VIDEO_PAGE0]`. -/
def fillPolygon (poly : Polygon) (posx posy : Int) (color : Nat) (dst src : Page) : Page :=
  let count := poly.count
  let half_bbw := poly.bbw / 2
  let half_bbh := poly.bbh / 2
  let x1 := wrap16s (posx - half_bbw)
  let x2 := wrap16s (posx + half_bbw)
  let y1 := wrap16s (posy - half_bbh)
  let y2 := wrap16s (posy + half_bbh)
  if x1 > 319 ∨ x2 < 0 ∨ y1 > 199 ∨ y2 < 0 then dst
  else if count = 4 ∧ ((poly.bbw = 1 ∧ poly.bbh ≤ 1) ∨ (poly.bbh = 1 ∧ poly.bbw ≤ 1)) then
    drawPoint dst src posx posy color
  else
    let p1 := poly.points.getD 0 ⟨0, 0⟩
    let p2 := poly.points.getD (count - 1) ⟨0, 0⟩
    let xa := u32 ((x1 + p1.x) * 65536)
    let xb := u32 ((x1 + p2.x) * 65536)
    fillLoop src color poly.points count count 0 (count - 1) xa xb (y1 : Int) dst

-- ---------------------------------------------------------------------------
-- Video: page bookkeeping and copyPage (video.cc)
-- ---------------------------------------------------------------------------

/-- Video state: the four physical pages and the three page pointers
(`_page0` = working page, `_page1` = displayed page, `_page2` = back
page), modelled as indices into the page array. -/
structure VideoState where
  pagesData : Nat → Page
  page0 : Nat
  page1 : Nat
  page2 : Nat

/-- `Video::getPage`: resolve a page selector to a physical page index.
0xfe (`VIDEO_PAGEV`) is the displayed page, 0xff (`VIDEO_PAGEI`) the
back page; anything else logs an error and yields the working page. -/
def getPage (v : VideoState) (page : Nat) : Nat :=
  if page = 0 ∨ page = 1 ∨ page = 2 ∨ page = 3 then page
  else if page = 0xfe then v.page1
  else if page = 0xff then v.page2
  else v.page0

/-- `memcpy` between two pages: `len` bytes from `sp` at `srcOff` into
`dp` at `dstOff`. -/
def copyBytes (v : VideoState) (dp sp dstOff srcOff len : Nat) : VideoState :=
  { v with pagesData := fun i =>
      if i = dp then
        fun o => if dstOff ≤ o ∧ o < dstOff + len then v.pagesData sp (o - dstOff + srcOff)
                 else v.pagesData dp o
      else v.pagesData i }

/-- `Video::copyPage`: equal selectors copy zero bytes; 0xfe/0xff or a
selector with bit 7 clear (after masking with 0xbf) copy a whole page;
otherwise the low two bits select the source page and the copy is
shifted by `vscroll` scanlines (nothing is copied when `vscroll` is
outside ±199). -/
def copyPage (v : VideoState) (dst src : Nat) (vscroll : Int) : VideoState :=
  if src = dst then v
  else if src = 0xfe ∨ src = 0xff then
    copyBytes v (getPage v dst) (getPage v src) 0 0 (200 * 160)
  else if (src &&& 0xbf) &&& 0x80 = 0 then
    copyBytes v (getPage v dst) (getPage v (src &&& 0xbf)) 0 0 (200 * 160)
  else
    let dp := getPage v dst
    let sp := getPage v ((src &&& 0xbf) &&& 3)
    if -199 ≤ vscroll ∧ vscroll ≤ 199 then
      if vscroll < 0 then
        copyBytes v dp sp 0 ((-vscroll).toNat * 160) ((200 - (-vscroll).toNat) * 160)
      else
        copyBytes v dp sp (vscroll.toNat * 160) 0 ((200 - vscroll.toNat) * 160)
    else v

-- ---------------------------------------------------------------------------
-- Relations used to state the register-bounds and comparison claims
-- ---------------------------------------------------------------------------

/-- The spec-side jump predicate: the comparison holds when both 16-bit
operands are interpreted as signed two's-complement values. -/
def signedCmp (compare op1 op2 : Nat) : Bool :=
  if compare = 0 then decide (int16_of op1 = int16_of op2)
  else if compare = 1 then decide (int16_of op1 ≠ int16_of op2)
  else if compare = 2 then decide (int16_of op1 > int16_of op2)
  else if compare = 3 then decide (int16_of op1 ≥ int16_of op2)
  else if compare = 4 then decide (int16_of op1 < int16_of op2)
  else if compare = 5 then decide (int16_of op1 ≤ int16_of op2)
  else false

/-- Cursor position of a successful step (used by a counterexample). -/
def posOfResult : Except Fatal VMState → Option Nat
  | .ok s => some s.pos
  | .error _ => none

/-- Two machine states that agree everywhere except possibly on
register indices ≥ 256 (outside the 256-entry register bank). -/
def StAgree (s t : VMState) : Prop :=
  s.code = t.code ∧ s.pos = t.pos ∧ s.threads = t.threads ∧ s.stackArr = t.stackArr ∧
  s.stackIdx = t.stackIdx ∧ s.partId = t.partId ∧ s.effects = t.effects ∧
  ∀ i, i < 256 → s.regs i = t.regs i

/-- Relation between the results of one instruction on two states that
agree on the register bank (`r0`, `r1` are the two pre-instruction
register files): equal fatal errors, or results that again agree on
the bank, with all registers outside the bank untouched.  Together
these say that instruction execution never reads nor writes a register
index outside 0–255. -/
def stepAgree (r0 r1 : Nat → Nat) : Except Fatal VMState → Except Fatal VMState → Prop
  | .ok s', .ok t' =>
      StAgree s' t' ∧ ∀ i, 256 ≤ i → s'.regs i = r0 i ∧ t'.regs i = r1 i
  | .error e, .error e' => e = e'
  | _, _ => False

-- ---------------------------------------------------------------------------
-- Concrete states used by witnesses and counterexamples
-- ---------------------------------------------------------------------------

/-- An idle thread slot. -/
def exThread : Thread :=
  { thread_id := 0, current_pc := 0, requested_pc := 0, current_state := 0,
    requested_state := 0, opcode := 0x3f, yield := false }

/-- A baseline machine state. -/
def exState : VMState :=
  { code := [], pos := 0, threads := fun _ => exThread, regs := fun _ => 0,
    stackArr := fun _ => 0, stackIdx := 0, partId := 0, effects := [] }

/-- State for the C1 counterexample: cursor at the operands of an
`init 3, 0xfffe` instruction, thread 3 active at pc 0x10. -/
def c1state : VMState :=
  { exState with
    code := [0x03, 0xff, 0xfe]
    threads := Function.update (fun _ => exThread) 3 { exThread with current_pc := 0x10 } }

/-- State for the C2 counterexample: register 5 holds 7. -/
def c2state : VMState :=
  { exState with regs := Function.update (fun _ => 0) 5 7 }

/-- The state produced by `resetCore 0 63 2 exState` (for the C3
witness). -/
def c3resultState : VMState :=
  { exState with threads := fun i =>
      if 0 ≤ i ∧ i ≤ 63 then { exState.threads i with requested_pc := 0xfffe }
      else exState.threads i }

/-- State for the C4 counterexample: inside game part 0, cursor at a
`cjmp eq,[$29],[$1e],$1234` instruction's operands, with registers
0x29 = 1 and 0x1e = 2 (so the signed comparison fails). -/
def c4state : VMState :=
  { exState with
    code := [0x80, 0x29, 0x1e, 0x12, 0x34]
    partId := 0x3e80
    regs := Function.update (Function.update (fun _ => 0) 0x29 1) 0x1e 2 }

/-- State with a full call stack and the cursor at a `call`
instruction (for the C7 witness). -/
def c7full : VMState :=
  { exState with stackIdx := 256, code := [0x04, 0x00, 0x10] }

/-- An all-zero framebuffer page. -/
def zeroPage : Page := fun _ => 0

/-- A decoded polygon with a fully collapsed bounding box (0×0), point
count 4 and all points at the origin (for the C5 counterexample). -/
def c5poly : Polygon :=
  { bbw := 0, bbh := 0, count := 4, points := [⟨0, 0⟩, ⟨0, 0⟩, ⟨0, 0⟩, ⟨0, 0⟩] }

/-- A decoded polygon whose bounding box collapses to a single pixel
(1×1, point count 4). -/
def c5point : Polygon :=
  { bbw := 1, bbh := 1, count := 4, points := [⟨0, 0⟩, ⟨1, 0⟩, ⟨1, 1⟩, ⟨0, 1⟩] }

-- ---------------------------------------------------------------------------
-- C1: deferred apply of op_init
-- ---------------------------------------------------------------------------

/-- Claim C1 counterexample.  The claim states that for every pc value
the new pc becomes thread t's `current_pc` at the next scheduling pass.
For pc = 0xfffe (the kill sentinel) the scheduling pass instead sets
`current_pc` to 0xffff: executing `init 3, 0xfffe` and then the
scheduling pass leaves thread 3 at 0xffff, not 0xfffe. -/
theorem init_fffe_counterexample :
    (applyRequests (op_init c1state).threads 3).current_pc = 0xffff ∧
      (0xffff : Nat) ≠ 0xfffe := by
  constructor
  · decide
  · decide

/-- Claim C1 (amended): `op_init t pc` writes only thread t's
`requested_pc` and leaves every thread's `current_pc` unchanged at the
moment of execution; the deferred request is applied by the scheduling
pass at the start of the next tick: for pc < 0xfffe the pc becomes
thread t's `current_pc` and the request is cleared to the 0xffff
sentinel; pc = 0xfffe is the kill sentinel (`current_pc` becomes
0xffff); pc = 0xffff is the "no change" sentinel (the request is
ignored). -/
theorem init_deferred_apply (s : VMState) (t pc : Nat) (ht : t < 64) (hpc : pc < 65536) :
    (∀ u, ((initCore t pc s).threads u).current_pc = (s.threads u).current_pc) ∧
    (∀ u, u ≠ t → (initCore t pc s).threads u = s.threads u) ∧
    ((initCore t pc s).threads t = { s.threads t with requested_pc := pc }) ∧
    (pc < 0xfffe →
      applyRequests (initCore t pc s).threads t =
        { s.threads t with current_state := (s.threads t).requested_state,
                           current_pc := pc, requested_pc := 0xffff }) ∧
    (pc = 0xfffe →
      applyRequests (initCore t pc s).threads t =
        { s.threads t with current_state := (s.threads t).requested_state,
                           current_pc := 0xffff, requested_pc := 0xffff }) ∧
    (pc = 0xffff →
      applyRequests (initCore t pc s).threads t =
        { s.threads t with current_state := (s.threads t).requested_state,
                           requested_pc := pc }) := by
  refine ⟨?_, ?_, ?_, ?_, ?_, ?_⟩
  · intro u
    by_cases hu : u = t <;>
      simp [initCore, updThread, Function.update, hu]
  · intro u hu
    simp [initCore, updThread, Function.update, hu]
  · simp [initCore, updThread, Function.update]
  · intro hlt
    have hne : pc ≠ 0xffff := by omega
    have hne2 : pc ≠ 0xfffe := by omega
    simp [initCore, updThread, Function.update, applyRequests, applyThread, hne, hne2]
  · intro he
    subst he
    simp [initCore, updThread, Function.update, applyRequests, applyThread]
  · intro he
    subst he
    simp [initCore, updThread, Function.update, applyRequests, applyThread]

/-- Witness for `init_deferred_apply` at t = 3, pc = 0x1234 on a
concrete state. -/
theorem init_deferred_apply_witness :
    applyRequests (initCore 3 0x1234 exState).threads 3 =
      { exState.threads 3 with current_state := (exState.threads 3).requested_state,
                               current_pc := 0x1234, requested_pc := 0xffff } :=
  (init_deferred_apply exState 3 0x1234 (by decide) (by decide)).2.2.2.1 (by decide)

-- ---------------------------------------------------------------------------
-- C2: setByteCode
-- ---------------------------------------------------------------------------

/-- Claim C2 counterexample.  The claim states that after
`setByteCode` every one of the 256 registers holds 0.  The source's
`reset_registers` lambda ORs each register with zero — a no-op — so a
register holding 7 before the call still holds 7 afterwards. -/
theorem setByteCode_regs_counterexample :
    ¬(∀ i, i < 256 → (setByteCode [] c2state).regs i = 0) := by
  intro h
  exact absurd (h 5 (by norm_num)) (by decide)

/-- Claim C2 (amended): after `setByteCode(bytes)` every thread slot
other than 0 is fully inactive (`current_pc` = `requested_pc` = 0xffff,
both states 0), thread 0 is active at pc 0 with no pending request,
the call stack is empty with all entries zero, the new image is
installed with the cursor at offset 0 — and the 256 registers are left
unchanged (the source's register "reset" ORs with zero, preserving
register contents across part transitions). -/
theorem setByteCode_resets (s : VMState) (bytes : List Nat) :
    (∀ i, i ≠ 0 → (setByteCode bytes s).threads i =
      { s.threads i with current_pc := 0xffff, requested_pc := 0xffff,
                         current_state := 0, requested_state := 0,
                         opcode := 0x3f, yield := false }) ∧
    ((setByteCode bytes s).threads 0 =
      { s.threads 0 with current_pc := 0x0000, requested_pc := 0xffff,
                         current_state := 0, requested_state := 0,
                         opcode := 0x3f, yield := false }) ∧
    (∀ i, (setByteCode bytes s).regs i = s.regs i) ∧
    (∀ i, (setByteCode bytes s).stackArr i = 0) ∧
    (setByteCode bytes s).stackIdx = 0 ∧
    (setByteCode bytes s).code = bytes ∧
    (setByteCode bytes s).pos = 0 := by
  refine ⟨?_, ?_, ?_, ?_, rfl, rfl, rfl⟩
  · intro i hi
    simp [setByteCode, hi]
  · simp [setByteCode]
  · intro i
    simp [setByteCode]
  · intro i
    simp [setByteCode]

/-- Witness for `setByteCode_resets` on a concrete state. -/
theorem setByteCode_resets_witness :
    (setByteCode [1, 2] c2state).threads 7 =
      { c2state.threads 7 with current_pc := 0xffff, requested_pc := 0xffff,
                               current_state := 0, requested_state := 0,
                               opcode := 0x3f, yield := false } ∧
    (setByteCode [1, 2] c2state).regs 5 = c2state.regs 5 :=
  ⟨(setByteCode_resets c2state [1, 2]).1 7 (by norm_num),
   (setByteCode_resets c2state [1, 2]).2.2.1 5⟩

-- ---------------------------------------------------------------------------
-- C3: reset(0, 63, 2) kills all threads at the next tick
-- ---------------------------------------------------------------------------

/-- Claim C3: if `reset 0,63,2` executes during tick N (writing the
0xfffe kill sentinel into every slot's `requested_pc`), then the
scheduling pass at the start of tick N+1 leaves every one of the 64
threads inactive (`current_pc` = 0xffff), whatever current/requested
states and pcs the threads had before. -/
theorem reset_all_kill (s s' : VMState) (t : Nat)
    (h : resetCore 0 63 2 s = .ok s') (ht : t ≤ 63) :
    (applyRequests s'.threads t).current_pc = 0xffff := by
  have hs' : s' = { s with threads :=
      (fun i => if 0 ≤ i ∧ i ≤ 63 then { s.threads i with requested_pc := 0xfffe }
                else s.threads i) } := by
    simpa [resetCore] using h.symm
  subst hs'
  simp [applyRequests, applyThread, ht]

/-- Witness for `reset_all_kill` on a concrete state, thread 5. -/
theorem reset_all_kill_witness :
    (applyRequests c3resultState.threads 5).current_pc = 0xffff :=
  reset_all_kill exState c3resultState 5 rfl (by norm_num)

-- ---------------------------------------------------------------------------
-- C4: signed conditional-jump semantics
-- ---------------------------------------------------------------------------

/-- Claim C4 counterexample.  `config.h` enables `BYPASS_PROTECTION`,
so inside game part 0 a `cjmp eq,[$29],[$1e],loc` takes the jump
unconditionally (and overwrites the protection registers) even though
the signed comparison of the operands fails: with registers
0x29 = 1 and 0x1e = 2 the jump to 0x1234 is still taken. -/
theorem cjmp_bypass_counterexample :
    posOfResult (op_cjmp c4state) = some 0x1234 ∧
      int16_of (c4state.regs 0x29) ≠ int16_of (c4state.regs 0x1e) := by
  constructor
  · decide
  · decide

/-- Claim C4 (amended): for predicate codes 0–5 and any operands, the
conditional jump is taken iff the corresponding comparison holds on
the operands read as signed two's-complement 16-bit values — except in
the `BYPASS_PROTECTION` special case (predicate `eq`, registers 0x29
vs 0x1e, current part = `GAME_PART0`), where the jump is taken
unconditionally.  `op_cjmp` funnels all three operand forms
(register, immediate byte, immediate word) into `cjmpCore`. -/
theorem cjmp_signed_semantics (compare rg1 rg2 op1 op2 loc : Nat) (s : VMState)
    (hcmp : compare ≤ 5)
    (hbyp : ¬(compare = 0 ∧ rg1 = 0x29 ∧ rg2 = 0x1e ∧ s.partId = 0x3e80)) :
    cjmpCore compare rg1 rg2 op1 op2 loc s =
      .ok (if signedCmp compare op1 op2 then seek s loc else s) := by
  unfold cjmpCore signedCmp
  rw [if_neg hbyp]
  interval_cases compare <;> simp

/-- Witness for `cjmp_signed_semantics`: `lt` with operands 0xffff
(that is, -1, as produced by wrapping 16-bit arithmetic) and 3: the
signed comparison -1 < 3 holds and the jump is taken. -/
theorem cjmp_signed_semantics_witness :
    cjmpCore 4 0 0 0xffff 3 0x200 exState =
      .ok (if signedCmp 4 0xffff 3 then seek exState 0x200 else exState) :=
  cjmp_signed_semantics 4 0 0 0xffff 3 0x200 exState (by norm_num) (by decide)

-- ---------------------------------------------------------------------------
-- C7: call/ret stack discipline
-- ---------------------------------------------------------------------------

/-- Claim C7: a `call` with 256 return addresses already stacked, and a
`ret` with an empty stack, are fatal before any stack mutation (the
checks precede the pushes/pops and `log_fatal` unwinds the run loop);
the index is never clamped.  Otherwise `call` pushes exactly one
return address — the offset just past its 2-byte operand — and seeks
to the target, and `ret` pops exactly one address and seeks to it.
The last two conjuncts show the run loop aborting with the error when
the fetched opcode is `call` (0x04) on a full stack or `ret` (0x05) on
an empty stack. -/
theorem call_ret_stack_discipline (s : VMState) :
    (256 ≤ s.stackIdx → op_call s = .error .stackOverflow) ∧
    (s.stackIdx < 256 → op_call s = .ok { s with
        stackArr := Function.update s.stackArr s.stackIdx (s.pos + 2)
        stackIdx := s.stackIdx + 1
        pos := (fetchWord s).1 }) ∧
    (s.stackIdx = 0 → op_ret s = .error .stackUnderflow) ∧
    (0 < s.stackIdx → op_ret s = .ok { s with
        stackIdx := s.stackIdx - 1
        pos := s.stackArr (s.stackIdx - 1) }) ∧
    (∀ fuel tid, 256 ≤ s.stackIdx → u8 (s.code.getD s.pos 0) = 0x04 →
        runLoop (fuel + 1) tid s = .error .stackOverflow) ∧
    (∀ fuel tid, s.stackIdx = 0 → u8 (s.code.getD s.pos 0) = 0x05 →
        runLoop (fuel + 1) tid s = .error .stackUnderflow) := by
  refine ⟨?_, ?_, ?_, ?_, ?_, ?_⟩
  · intro h
    simp [op_call, h]
  · intro h
    have h' : ¬256 ≤ s.stackIdx := by omega
    simp [op_call, h', fetchWord]
  · intro h
    simp [op_ret, h]
  · intro h
    have h' : s.stackIdx ≠ 0 := by omega
    simp [op_ret, h']
  · intro fuel tid h hb
    have hb' : u8 (s.code[s.pos]?.getD 0) = 0x04 := by simpa using hb
    simp [runLoop, runStep, fetchByte, hb', execInstr, dispatch, op_call, updThread, h]
  · intro fuel tid h hb
    have hb' : u8 (s.code[s.pos]?.getD 0) = 0x05 := by simpa using hb
    simp [runLoop, runStep, fetchByte, hb', execInstr, dispatch, op_ret, updThread, h]

/-- Witness for `call_ret_stack_discipline`: overflow on the concrete
full-stack state, underflow on the concrete empty-stack state, and a
successful push on the empty-stack state. -/
theorem call_ret_stack_discipline_witness :
    op_call c7full = .error .stackOverflow ∧
    op_ret exState = .error .stackUnderflow ∧
    op_call exState = .ok { exState with
        stackArr := Function.update exState.stackArr exState.stackIdx (exState.pos + 2)
        stackIdx := exState.stackIdx + 1
        pos := (fetchWord exState).1 } :=
  ⟨(call_ret_stack_discipline c7full).1 (by decide),
   (call_ret_stack_discipline exState).2.2.1 rfl,
   (call_ret_stack_discipline exState).2.1 (by decide)⟩

-- ---------------------------------------------------------------------------
-- C8: opcode space partition and fatal invalid opcodes
-- ---------------------------------------------------------------------------

/-- Claim C8: the dispatch switch sends each fixed opcode 0x00–0x1a to
its own handler (injectively, never to the invalid or polygon
classes), every byte in 0x1b–0x3f to the fatal invalid handler, every
byte in 0x40–0x7f to the first polygon super-opcode and every byte in
0x80–0xff to the second; an invalid opcode makes the instruction step
fail fatally (logging opcode and program counter) and the error stops
the run loop with no further instruction executing. -/
theorem opcode_space_partition :
    (∀ b b', b ≤ 0x1a → b' ≤ 0x1a → dispatch b = dispatch b' → b = b') ∧
    (∀ b, b ≤ 0x1a →
      dispatch b ≠ .invalid ∧ dispatch b ≠ .poly1 ∧ dispatch b ≠ .poly2) ∧
    (∀ b, 0x1b ≤ b → b ≤ 0x3f → dispatch b = .invalid) ∧
    (∀ b, 0x40 ≤ b → b ≤ 0x7f → dispatch b = .poly1) ∧
    (∀ b, 0x80 ≤ b → b ≤ 0xff → dispatch b = .poly2) ∧
    (∀ tid b s, 0x1b ≤ b → b ≤ 0x3f →
      execInstr tid b s = .error (.invalidOpcode b (s.threads tid).current_pc)) ∧
    (∀ fuel tid s e, runStep tid s = .error e → runLoop (fuel + 1) tid s = .error e) := by
  have hinv : ∀ b, 0x1b ≤ b → b ≤ 0x3f → dispatch b = .invalid := by
    intro b h1 h2
    interval_cases b <;> rfl
  refine ⟨?_, ?_, hinv, ?_, ?_, ?_, ?_⟩
  · have H : ∀ x y : Fin 27, dispatch x.val = dispatch y.val → x = y := by decide
    intro b b' hb hb' h
    have := H ⟨b, by omega⟩ ⟨b', by omega⟩ h
    exact congrArg Fin.val this
  · intro b hb
    interval_cases b <;> refine ⟨by decide, by decide, by decide⟩
  · intro b h1 h2
    interval_cases b <;> rfl
  · intro b h1 h2
    interval_cases b <;> rfl
  · intro tid b s h1 h2
    simp [execInstr, hinv b h1 h2, op_invalid]
  · intro fuel tid s e h
    simp [runLoop, h]

/-- Witness for `opcode_space_partition` at concrete opcode bytes. -/
theorem opcode_space_partition_witness :
    dispatch 0x1b = .invalid ∧ dispatch 0x40 = .poly1 ∧ dispatch 0x80 = .poly2 ∧
    execInstr 0 0x20 exState = .error (.invalidOpcode 0x20 (exState.threads 0).current_pc) :=
  ⟨opcode_space_partition.2.2.1 0x1b (by norm_num) (by norm_num),
   opcode_space_partition.2.2.2.1 0x40 (by norm_num) (by norm_num),
   opcode_space_partition.2.2.2.2.1 0x80 (by norm_num) (by norm_num),
   opcode_space_partition.2.2.2.2.2.1 0 0x20 exState (by norm_num) (by norm_num)⟩

-- ---------------------------------------------------------------------------
-- C9: register accesses stay inside the 256-entry bank
-- ---------------------------------------------------------------------------

theorem u8_lt (x : Nat) : u8 x < 256 := Nat.mod_lt _ (by norm_num)

theorem agree_movi (s t : VMState) (h : StAgree s t) :
    StAgree (op_movi s) (op_movi t) ∧
      ∀ i, 256 ≤ i → (op_movi s).regs i = s.regs i ∧ (op_movi t).regs i = t.regs i := by
  obtain ⟨hc, hp, hth, hsa, hsi, hpid, hef, hr⟩ := h
  have hru : ∀ x, s.regs (u8 x) = t.regs (u8 x) := fun x => hr _ (u8_lt x)
  constructor
  · simp only [op_movi, fetchByte, fetchWord, updReg, hc, hp, hth, hsa, hsi, hpid, hef, hru]
    refine ⟨rfl, rfl, rfl, rfl, rfl, rfl, rfl, ?_⟩
    intro i hi
    rcases eq_or_ne i (u8 (t.code.getD t.pos 0)) with he | he
    · subst he; simp [Function.update]
    · simp [Function.update_noteq he, hr i hi]
  · intro i hi
    have hs' : i ≠ u8 (s.code.getD s.pos 0) := by have := u8_lt (s.code.getD s.pos 0); omega
    have ht' : i ≠ u8 (t.code.getD t.pos 0) := by have := u8_lt (t.code.getD t.pos 0); omega
    constructor
    · simp only [op_movi, fetchByte, fetchWord, updReg]
      exact Function.update_noteq hs' _ _
    · simp only [op_movi, fetchByte, fetchWord, updReg]
      exact Function.update_noteq ht' _ _

theorem agree_movr (s t : VMState) (h : StAgree s t) :
    StAgree (op_movr s) (op_movr t) ∧
      ∀ i, 256 ≤ i → (op_movr s).regs i = s.regs i ∧ (op_movr t).regs i = t.regs i := by
  obtain ⟨hc, hp, hth, hsa, hsi, hpid, hef, hr⟩ := h
  have hru : ∀ x, s.regs (u8 x) = t.regs (u8 x) := fun x => hr _ (u8_lt x)
  constructor
  · simp only [op_movr, fetchByte, updReg, hc, hp, hth, hsa, hsi, hpid, hef, hru]
    refine ⟨rfl, rfl, rfl, rfl, rfl, rfl, rfl, ?_⟩
    intro i hi
    rcases eq_or_ne i (u8 (t.code.getD t.pos 0)) with he | he
    · subst he; simp [Function.update]
    · simp [Function.update_noteq he, hr i hi]
  · intro i hi
    have hs' : i ≠ u8 (s.code.getD s.pos 0) := by have := u8_lt (s.code.getD s.pos 0); omega
    have ht' : i ≠ u8 (t.code.getD t.pos 0) := by have := u8_lt (t.code.getD t.pos 0); omega
    constructor
    · simp only [op_movr, fetchByte, updReg]
      exact Function.update_noteq hs' _ _
    · simp only [op_movr, fetchByte, updReg]
      exact Function.update_noteq ht' _ _

theorem agree_addr (s t : VMState) (h : StAgree s t) :
    StAgree (op_addr s) (op_addr t) ∧
      ∀ i, 256 ≤ i → (op_addr s).regs i = s.regs i ∧ (op_addr t).regs i = t.regs i := by
  obtain ⟨hc, hp, hth, hsa, hsi, hpid, hef, hr⟩ := h
  have hru : ∀ x, s.regs (u8 x) = t.regs (u8 x) := fun x => hr _ (u8_lt x)
  constructor
  · simp only [op_addr, fetchByte, updReg, hc, hp, hth, hsa, hsi, hpid, hef, hru]
    refine ⟨rfl, rfl, rfl, rfl, rfl, rfl, rfl, ?_⟩
    intro i hi
    rcases eq_or_ne i (u8 (t.code.getD t.pos 0)) with he | he
    · subst he; simp [Function.update]
    · simp [Function.update_noteq he, hr i hi]
  · intro i hi
    have hs' : i ≠ u8 (s.code.getD s.pos 0) := by have := u8_lt (s.code.getD s.pos 0); omega
    have ht' : i ≠ u8 (t.code.getD t.pos 0) := by have := u8_lt (t.code.getD t.pos 0); omega
    constructor
    · simp only [op_addr, fetchByte, updReg]
      exact Function.update_noteq hs' _ _
    · simp only [op_addr, fetchByte, updReg]
      exact Function.update_noteq ht' _ _

theorem agree_addi (s t : VMState) (h : StAgree s t) :
    StAgree (op_addi s) (op_addi t) ∧
      ∀ i, 256 ≤ i → (op_addi s).regs i = s.regs i ∧ (op_addi t).regs i = t.regs i := by
  obtain ⟨hc, hp, hth, hsa, hsi, hpid, hef, hr⟩ := h
  have hru : ∀ x, s.regs (u8 x) = t.regs (u8 x) := fun x => hr _ (u8_lt x)
  constructor
  · simp only [op_addi, fetchByte, fetchWord, updReg, hc, hp, hth, hsa, hsi, hpid, hef, hru]
    refine ⟨rfl, rfl, rfl, rfl, rfl, rfl, rfl, ?_⟩
    intro i hi
    rcases eq_or_ne i (u8 (t.code.getD t.pos 0)) with he | he
    · subst he; simp [Function.update]
    · simp [Function.update_noteq he, hr i hi]
  · intro i hi
    have hs' : i ≠ u8 (s.code.getD s.pos 0) := by have := u8_lt (s.code.getD s.pos 0); omega
    have ht' : i ≠ u8 (t.code.getD t.pos 0) := by have := u8_lt (t.code.getD t.pos 0); omega
    constructor
    · simp only [op_addi, fetchByte, fetchWord, updReg]
      exact Function.update_noteq hs' _ _
    · simp only [op_addi, fetchByte, fetchWord, updReg]
      exact Function.update_noteq ht' _ _

theorem agree_subr (s t : VMState) (h : StAgree s t) :
    StAgree (op_subr s) (op_subr t) ∧
      ∀ i, 256 ≤ i → (op_subr s).regs i = s.regs i ∧ (op_subr t).regs i = t.regs i := by
  obtain ⟨hc, hp, hth, hsa, hsi, hpid, hef, hr⟩ := h
  have hru : ∀ x, s.regs (u8 x) = t.regs (u8 x) := fun x => hr _ (u8_lt x)
  constructor
  · simp only [op_subr, fetchByte, updReg, hc, hp, hth, hsa, hsi, hpid, hef, hru]
    refine ⟨rfl, rfl, rfl, rfl, rfl, rfl, rfl, ?_⟩
    intro i hi
    rcases eq_or_ne i (u8 (t.code.getD t.pos 0)) with he | he
    · subst he; simp [Function.update]
    · simp [Function.update_noteq he, hr i hi]
  · intro i hi
    have hs' : i ≠ u8 (s.code.getD s.pos 0) := by have := u8_lt (s.code.getD s.pos 0); omega
    have ht' : i ≠ u8 (t.code.getD t.pos 0) := by have := u8_lt (t.code.getD t.pos 0); omega
    constructor
    · simp only [op_subr, fetchByte, updReg]
      exact Function.update_noteq hs' _ _
    · simp only [op_subr, fetchByte, updReg]
      exact Function.update_noteq ht' _ _

theorem agree_andi (s t : VMState) (h : StAgree s t) :
    StAgree (op_andi s) (op_andi t) ∧
      ∀ i, 256 ≤ i → (op_andi s).regs i = s.regs i ∧ (op_andi t).regs i = t.regs i := by
  obtain ⟨hc, hp, hth, hsa, hsi, hpid, hef, hr⟩ := h
  have hru : ∀ x, s.regs (u8 x) = t.regs (u8 x) := fun x => hr _ (u8_lt x)
  constructor
  · simp only [op_andi, fetchByte, fetchWord, updReg, hc, hp, hth, hsa, hsi, hpid, hef, hru]
    refine ⟨rfl, rfl, rfl, rfl, rfl, rfl, rfl, ?_⟩
    intro i hi
    rcases eq_or_ne i (u8 (t.code.getD t.pos 0)) with he | he
    · subst he; simp [Function.update]
    · simp [Function.update_noteq he, hr i hi]
  · intro i hi
    have hs' : i ≠ u8 (s.code.getD s.pos 0) := by have := u8_lt (s.code.getD s.pos 0); omega
    have ht' : i ≠ u8 (t.code.getD t.pos 0) := by have := u8_lt (t.code.getD t.pos 0); omega
    constructor
    · simp only [op_andi, fetchByte, fetchWord, updReg]
      exact Function.update_noteq hs' _ _
    · simp only [op_andi, fetchByte, fetchWord, updReg]
      exact Function.update_noteq ht' _ _

theorem agree_iori (s t : VMState) (h : StAgree s t) :
    StAgree (op_iori s) (op_iori t) ∧
      ∀ i, 256 ≤ i → (op_iori s).regs i = s.regs i ∧ (op_iori t).regs i = t.regs i := by
  obtain ⟨hc, hp, hth, hsa, hsi, hpid, hef, hr⟩ := h
  have hru : ∀ x, s.regs (u8 x) = t.regs (u8 x) := fun x => hr _ (u8_lt x)
  constructor
  · simp only [op_iori, fetchByte, fetchWord, updReg, hc, hp, hth, hsa, hsi, hpid, hef, hru]
    refine ⟨rfl, rfl, rfl, rfl, rfl, rfl, rfl, ?_⟩
    intro i hi
    rcases eq_or_ne i (u8 (t.code.getD t.pos 0)) with he | he
    · subst he; simp [Function.update]
    · simp [Function.update_noteq he, hr i hi]
  · intro i hi
    have hs' : i ≠ u8 (s.code.getD s.pos 0) := by have := u8_lt (s.code.getD s.pos 0); omega
    have ht' : i ≠ u8 (t.code.getD t.pos 0) := by have := u8_lt (t.code.getD t.pos 0); omega
    constructor
    · simp only [op_iori, fetchByte, fetchWord, updReg]
      exact Function.update_noteq hs' _ _
    · simp only [op_iori, fetchByte, fetchWord, updReg]
      exact Function.update_noteq ht' _ _

theorem agree_shli (s t : VMState) (h : StAgree s t) :
    StAgree (op_shli s) (op_shli t) ∧
      ∀ i, 256 ≤ i → (op_shli s).regs i = s.regs i ∧ (op_shli t).regs i = t.regs i := by
  obtain ⟨hc, hp, hth, hsa, hsi, hpid, hef, hr⟩ := h
  have hru : ∀ x, s.regs (u8 x) = t.regs (u8 x) := fun x => hr _ (u8_lt x)
  constructor
  · simp only [op_shli, fetchByte, fetchWord, updReg, hc, hp, hth, hsa, hsi, hpid, hef, hru]
    refine ⟨rfl, rfl, rfl, rfl, rfl, rfl, rfl, ?_⟩
    intro i hi
    rcases eq_or_ne i (u8 (t.code.getD t.pos 0)) with he | he
    · subst he; simp [Function.update]
    · simp [Function.update_noteq he, hr i hi]
  · intro i hi
    have hs' : i ≠ u8 (s.code.getD s.pos 0) := by have := u8_lt (s.code.getD s.pos 0); omega
    have ht' : i ≠ u8 (t.code.getD t.pos 0) := by have := u8_lt (t.code.getD t.pos 0); omega
    constructor
    · simp only [op_shli, fetchByte, fetchWord, updReg]
      exact Function.update_noteq hs' _ _
    · simp only [op_shli, fetchByte, fetchWord, updReg]
      exact Function.update_noteq ht' _ _

theorem agree_shri (s t : VMState) (h : StAgree s t) :
    StAgree (op_shri s) (op_shri t) ∧
      ∀ i, 256 ≤ i → (op_shri s).regs i = s.regs i ∧ (op_shri t).regs i = t.regs i := by
  obtain ⟨hc, hp, hth, hsa, hsi, hpid, hef, hr⟩ := h
  have hru : ∀ x, s.regs (u8 x) = t.regs (u8 x) := fun x => hr _ (u8_lt x)
  constructor
  · simp only [op_shri, fetchByte, fetchWord, updReg, hc, hp, hth, hsa, hsi, hpid, hef, hru]
    refine ⟨rfl, rfl, rfl, rfl, rfl, rfl, rfl, ?_⟩
    intro i hi
    rcases eq_or_ne i (u8 (t.code.getD t.pos 0)) with he | he
    · subst he; simp [Function.update]
    · simp [Function.update_noteq he, hr i hi]
  · intro i hi
    have hs' : i ≠ u8 (s.code.getD s.pos 0) := by have := u8_lt (s.code.getD s.pos 0); omega
    have ht' : i ≠ u8 (t.code.getD t.pos 0) := by have := u8_lt (t.code.getD t.pos 0); omega
    constructor
    · simp only [op_shri, fetchByte, fetchWord, updReg]
      exact Function.update_noteq hs' _ _
    · simp only [op_shri, fetchByte, fetchWord, updReg]
      exact Function.update_noteq ht' _ _

theorem agree_jump (s t : VMState) (h : StAgree s t) :
    StAgree (op_jump s) (op_jump t) ∧
      ∀ i, 256 ≤ i → (op_jump s).regs i = s.regs i ∧ (op_jump t).regs i = t.regs i := by
  obtain ⟨hc, hp, hth, hsa, hsi, hpid, hef, hr⟩ := h
  refine ⟨?_, fun i _ => ⟨rfl, rfl⟩⟩
  simp only [op_jump, fetchWord, seek, hc, hp, hth, hsa, hsi, hpid, hef]
  exact ⟨rfl, rfl, rfl, rfl, rfl, rfl, rfl, hr⟩

theorem agree_djnz (s t : VMState) (h : StAgree s t) :
    StAgree (op_djnz s) (op_djnz t) ∧
      ∀ i, 256 ≤ i → (op_djnz s).regs i = s.regs i ∧ (op_djnz t).regs i = t.regs i := by
  obtain ⟨hc, hp, hth, hsa, hsi, hpid, hef, hr⟩ := h
  have hru : ∀ x, s.regs (u8 x) = t.regs (u8 x) := fun x => hr _ (u8_lt x)
  constructor
  · simp only [op_djnz, fetchByte, fetchWord, updReg, seek, hc, hp, hth, hsa, hsi, hpid,
      hef, hru]
    split_ifs
    all_goals
      refine ⟨rfl, rfl, rfl, rfl, rfl, rfl, rfl, ?_⟩
      intro i hi
      rcases eq_or_ne i (u8 (t.code.getD t.pos 0)) with he | he
      · subst he; simp [Function.update]
      · simp [Function.update_noteq he, hr i hi]
  · intro i hi
    have hs' : i ≠ u8 (s.code.getD s.pos 0) := by have := u8_lt (s.code.getD s.pos 0); omega
    have ht' : i ≠ u8 (t.code.getD t.pos 0) := by have := u8_lt (t.code.getD t.pos 0); omega
    constructor
    · simp only [op_djnz, fetchByte, fetchWord, updReg, seek]
      split_ifs <;> exact Function.update_noteq hs' _ _
    · simp only [op_djnz, fetchByte, fetchWord, updReg, seek]
      split_ifs <;> exact Function.update_noteq ht' _ _

theorem agree_init (s t : VMState) (h : StAgree s t) :
    StAgree (op_init s) (op_init t) ∧
      ∀ i, 256 ≤ i → (op_init s).regs i = s.regs i ∧ (op_init t).regs i = t.regs i := by
  obtain ⟨hc, hp, hth, hsa, hsi, hpid, hef, hr⟩ := h
  refine ⟨?_, fun i _ => ⟨rfl, rfl⟩⟩
  simp only [op_init, initCore, fetchByte, fetchWord, updThread, hc, hp, hth]
  exact ⟨rfl, rfl, rfl, hsa, hsi, hpid, hef, hr⟩

theorem agree_kill (tid : Nat) (s t : VMState) (h : StAgree s t) :
    StAgree (op_kill tid s) (op_kill tid t) ∧
      ∀ i, 256 ≤ i →
        (op_kill tid s).regs i = s.regs i ∧ (op_kill tid t).regs i = t.regs i := by
  obtain ⟨hc, hp, hth, hsa, hsi, hpid, hef, hr⟩ := h
  refine ⟨?_, fun i _ => ⟨rfl, rfl⟩⟩
  simp only [op_kill, seek, updThread, hth]
  exact ⟨hc, rfl, rfl, hsa, hsi, hpid, hef, hr⟩

theorem agree_yieldOp (tid : Nat) (s t : VMState) (h : StAgree s t) :
    StAgree (op_yield tid s) (op_yield tid t) ∧
      ∀ i, 256 ≤ i →
        (op_yield tid s).regs i = s.regs i ∧ (op_yield tid t).regs i = t.regs i := by
  obtain ⟨hc, hp, hth, hsa, hsi, hpid, hef, hr⟩ := h
  refine ⟨?_, fun i _ => ⟨rfl, rfl⟩⟩
  simp only [op_yield, updThread, hth]
  exact ⟨hc, hp, rfl, hsa, hsi, hpid, hef, hr⟩

theorem agree_loadres (s t : VMState) (h : StAgree s t) :
    StAgree (op_loadres s) (op_loadres t) ∧
      ∀ i, 256 ≤ i → (op_loadres s).regs i = s.regs i ∧ (op_loadres t).regs i = t.regs i := by
  obtain ⟨hc, hp, hth, hsa, hsi, hpid, hef, hr⟩ := h
  refine ⟨?_, fun i _ => ⟨rfl, rfl⟩⟩
  simp only [op_loadres, fetchWord, emit, hc, hp, hef]
  exact ⟨rfl, rfl, hth, hsa, hsi, hpid, rfl, hr⟩

theorem agree_palette (s t : VMState) (h : StAgree s t) :
    StAgree (op_palette s) (op_palette t) ∧
      ∀ i, 256 ≤ i → (op_palette s).regs i = s.regs i ∧ (op_palette t).regs i = t.regs i := by
  obtain ⟨hc, hp, hth, hsa, hsi, hpid, hef, hr⟩ := h
  refine ⟨?_, fun i _ => ⟨rfl, rfl⟩⟩
  simp only [op_palette, fetchWord, emit, hc, hp, hef]
  exact ⟨rfl, rfl, hth, hsa, hsi, hpid, rfl, hr⟩

theorem agree_page (s t : VMState) (h : StAgree s t) :
    StAgree (op_page s) (op_page t) ∧
      ∀ i, 256 ≤ i → (op_page s).regs i = s.regs i ∧ (op_page t).regs i = t.regs i := by
  obtain ⟨hc, hp, hth, hsa, hsi, hpid, hef, hr⟩ := h
  refine ⟨?_, fun i _ => ⟨rfl, rfl⟩⟩
  simp only [op_page, fetchByte, emit, hc, hp, hef]
  exact ⟨rfl, rfl, hth, hsa, hsi, hpid, rfl, hr⟩

theorem agree_fill (s t : VMState) (h : StAgree s t) :
    StAgree (op_fill s) (op_fill t) ∧
      ∀ i, 256 ≤ i → (op_fill s).regs i = s.regs i ∧ (op_fill t).regs i = t.regs i := by
  obtain ⟨hc, hp, hth, hsa, hsi, hpid, hef, hr⟩ := h
  refine ⟨?_, fun i _ => ⟨rfl, rfl⟩⟩
  simp only [op_fill, fetchByte, emit, hc, hp, hef]
  exact ⟨rfl, rfl, hth, hsa, hsi, hpid, rfl, hr⟩

theorem agree_copy (s t : VMState) (h : StAgree s t) :
    StAgree (op_copy s) (op_copy t) ∧
      ∀ i, 256 ≤ i → (op_copy s).regs i = s.regs i ∧ (op_copy t).regs i = t.regs i := by
  obtain ⟨hc, hp, hth, hsa, hsi, hpid, hef, hr⟩ := h
  have h249 : s.regs 0xf9 = t.regs 0xf9 := hr _ (by norm_num)
  refine ⟨?_, fun i _ => ⟨rfl, rfl⟩⟩
  simp only [op_copy, fetchByte, emit, hc, hp, hef, h249]
  exact ⟨rfl, rfl, hth, hsa, hsi, hpid, rfl, hr⟩

theorem agree_blit (s t : VMState) (h : StAgree s t) :
    StAgree (op_blit s) (op_blit t) ∧
      ∀ i, 256 ≤ i → (op_blit s).regs i = s.regs i ∧ (op_blit t).regs i = t.regs i := by
  obtain ⟨hc, hp, hth, hsa, hsi, hpid, hef, hr⟩ := h
  refine ⟨?_, fun i _ => ⟨rfl, rfl⟩⟩
  simp only [op_blit, fetchByte, emit, hc, hp, hef]
  exact ⟨rfl, rfl, hth, hsa, hsi, hpid, rfl, hr⟩

theorem agree_print (s t : VMState) (h : StAgree s t) :
    StAgree (op_print s) (op_print t) ∧
      ∀ i, 256 ≤ i → (op_print s).regs i = s.regs i ∧ (op_print t).regs i = t.regs i := by
  obtain ⟨hc, hp, hth, hsa, hsi, hpid, hef, hr⟩ := h
  refine ⟨?_, fun i _ => ⟨rfl, rfl⟩⟩
  simp only [op_print, fetchByte, fetchWord, emit, hc, hp, hef]
  exact ⟨rfl, rfl, hth, hsa, hsi, hpid, rfl, hr⟩

theorem agree_sound (s t : VMState) (h : StAgree s t) :
    StAgree (op_sound s) (op_sound t) ∧
      ∀ i, 256 ≤ i → (op_sound s).regs i = s.regs i ∧ (op_sound t).regs i = t.regs i := by
  obtain ⟨hc, hp, hth, hsa, hsi, hpid, hef, hr⟩ := h
  refine ⟨?_, fun i _ => ⟨rfl, rfl⟩⟩
  simp only [op_sound, fetchByte, fetchWord, emit, hc, hp, hef]
  exact ⟨rfl, rfl, hth, hsa, hsi, hpid, rfl, hr⟩

theorem agree_music (s t : VMState) (h : StAgree s t) :
    StAgree (op_music s) (op_music t) ∧
      ∀ i, 256 ≤ i → (op_music s).regs i = s.regs i ∧ (op_music t).regs i = t.regs i := by
  obtain ⟨hc, hp, hth, hsa, hsi, hpid, hef, hr⟩ := h
  refine ⟨?_, fun i _ => ⟨rfl, rfl⟩⟩
  simp only [op_music, fetchByte, fetchWord, emit, hc, hp, hef]
  exact ⟨rfl, rfl, hth, hsa, hsi, hpid, rfl, hr⟩

theorem poly1_offset_spec (s t : VMState) (h : StAgree s t) :
    (poly1_offset s).1 = (poly1_offset t).1 ∧
      StAgree (poly1_offset s).2 (poly1_offset t).2 ∧
      (poly1_offset s).2.regs = s.regs ∧ (poly1_offset t).2.regs = t.regs := by
  obtain ⟨hc, hp, hth, hsa, hsi, hpid, hef, hr⟩ := h
  refine ⟨?_, ⟨?_, ?_, hth, hsa, hsi, hpid, hef, hr⟩, rfl, rfl⟩ <;>
    simp only [poly1_offset, fetchWord, hc, hp]

theorem poly1_x_spec (opcode : Nat) (s t : VMState) (h : StAgree s t) :
    (poly1_x opcode s).1 = (poly1_x opcode t).1 ∧
      StAgree (poly1_x opcode s).2 (poly1_x opcode t).2 ∧
      (poly1_x opcode s).2.regs = s.regs ∧ (poly1_x opcode t).2.regs = t.regs := by
  obtain ⟨hc, hp, hth, hsa, hsi, hpid, hef, hr⟩ := h
  have hru : ∀ x, s.regs (u8 x) = t.regs (u8 x) := fun x => hr _ (u8_lt x)
  unfold poly1_x
  simp only [fetchByte]
  split_ifs <;>
    exact ⟨by simp only [hc, hp, hru],
      ⟨by simp only [hc], by simp only [hp], hth, hsa, hsi, hpid, hef, hr⟩, rfl, rfl⟩

theorem poly1_y_spec (opcode : Nat) (s t : VMState) (h : StAgree s t) :
    (poly1_y opcode s).1 = (poly1_y opcode t).1 ∧
      StAgree (poly1_y opcode s).2 (poly1_y opcode t).2 ∧
      (poly1_y opcode s).2.regs = s.regs ∧ (poly1_y opcode t).2.regs = t.regs := by
  obtain ⟨hc, hp, hth, hsa, hsi, hpid, hef, hr⟩ := h
  have hru : ∀ x, s.regs (u8 x) = t.regs (u8 x) := fun x => hr _ (u8_lt x)
  unfold poly1_y
  simp only [fetchByte]
  split_ifs <;>
    exact ⟨by simp only [hc, hp, hru],
      ⟨by simp only [hc], by simp only [hp], hth, hsa, hsi, hpid, hef, hr⟩, rfl, rfl⟩

theorem poly1_zoom_spec (opcode : Nat) (s t : VMState) (h : StAgree s t) :
    (poly1_zoom opcode s).1 = (poly1_zoom opcode t).1 ∧
      (poly1_zoom opcode s).2.1 = (poly1_zoom opcode t).2.1 ∧
      StAgree (poly1_zoom opcode s).2.2 (poly1_zoom opcode t).2.2 ∧
      (poly1_zoom opcode s).2.2.regs = s.regs ∧ (poly1_zoom opcode t).2.2.regs = t.regs := by
  obtain ⟨hc, hp, hth, hsa, hsi, hpid, hef, hr⟩ := h
  have hru : ∀ x, s.regs (u8 x) = t.regs (u8 x) := fun x => hr _ (u8_lt x)
  unfold poly1_zoom
  simp only [fetchByte]
  split_ifs <;>
    exact ⟨by simp only [hc, hp, hru], rfl,
      ⟨by simp only [hc], by simp only [hp], hth, hsa, hsi, hpid, hef, hr⟩, rfl, rfl⟩

theorem agree_poly1 (opcode : Nat) (s t : VMState) (h : StAgree s t) :
    StAgree (op_poly1 opcode s) (op_poly1 opcode t) ∧
      ∀ i, 256 ≤ i →
        (op_poly1 opcode s).regs i = s.regs i ∧ (op_poly1 opcode t).regs i = t.regs i := by
  obtain ⟨hov, h1, hors, hort⟩ := poly1_offset_spec s t h
  obtain ⟨hxv, h2, hxrs, hxrt⟩ := poly1_x_spec opcode _ _ h1
  obtain ⟨hyv, h3, hyrs, hyrt⟩ := poly1_y_spec opcode _ _ h2
  obtain ⟨hzv, hdv, h4, hzrs, hzrt⟩ := poly1_zoom_spec opcode _ _ h3
  obtain ⟨hc4, hp4, hth4, hsa4, hsi4, hpid4, hef4, hr4⟩ := h4
  constructor
  · exact ⟨hc4, hp4, hth4, hsa4, hsi4, hpid4,
      by simp only [op_poly1, emit]; rw [hef4, hov, hxv, hyv, hzv, hdv], hr4⟩
  · intro i hi
    constructor
    · show (poly1_zoom opcode (poly1_y opcode (poly1_x opcode
          (poly1_offset s).2).2).2).2.2.regs i = s.regs i
      rw [hzrs, hyrs, hxrs, hors]
    · show (poly1_zoom opcode (poly1_y opcode (poly1_x opcode
          (poly1_offset t).2).2).2).2.2.regs i = t.regs i
      rw [hzrt, hyrt, hxrt, hort]

theorem agree_poly2 (opcode : Nat) (s t : VMState) (h : StAgree s t) :
    StAgree (op_poly2 opcode s) (op_poly2 opcode t) ∧
      ∀ i, 256 ≤ i →
        (op_poly2 opcode s).regs i = s.regs i ∧ (op_poly2 opcode t).regs i = t.regs i := by
  obtain ⟨hc, hp, hth, hsa, hsi, hpid, hef, hr⟩ := h
  refine ⟨?_, fun i _ => ⟨rfl, rfl⟩⟩
  simp only [op_poly2, fetchByte, emit, hc, hp, hef]
  exact ⟨rfl, rfl, hth, hsa, hsi, hpid, rfl, hr⟩

theorem agree_call (s t : VMState) (h : StAgree s t) :
    stepAgree s.regs t.regs (op_call s) (op_call t) := by
  obtain ⟨hc, hp, hth, hsa, hsi, hpid, hef, hr⟩ := h
  by_cases hfull : 256 ≤ s.stackIdx
  · have hfull' : 256 ≤ t.stackIdx := hsi ▸ hfull
    simp only [op_call, if_pos hfull, if_pos hfull']
    rfl
  · have hfull' : ¬256 ≤ t.stackIdx := hsi ▸ hfull
    simp only [op_call, if_neg hfull, if_neg hfull', fetchWord]
    refine ⟨⟨?_, ?_, ?_, ?_, ?_, ?_, ?_, hr⟩, fun i _ => ⟨rfl, rfl⟩⟩ <;>
      simp only [hc, hp, hth, hsa, hsi, hpid, hef]

theorem agree_ret (s t : VMState) (h : StAgree s t) :
    stepAgree s.regs t.regs (op_ret s) (op_ret t) := by
  obtain ⟨hc, hp, hth, hsa, hsi, hpid, hef, hr⟩ := h
  by_cases hz : s.stackIdx = 0
  · have hz' : t.stackIdx = 0 := hsi ▸ hz
    simp only [op_ret, if_pos hz, if_pos hz']
    rfl
  · have hz' : ¬t.stackIdx = 0 := hsi ▸ hz
    simp only [op_ret, if_neg hz, if_neg hz']
    refine ⟨⟨?_, ?_, ?_, ?_, ?_, ?_, ?_, hr⟩, fun i _ => ⟨rfl, rfl⟩⟩ <;>
      simp only [hc, hp, hth, hsa, hsi, hpid, hef]

theorem agree_reset (s t : VMState) (h : StAgree s t) :
    stepAgree s.regs t.regs (op_reset s) (op_reset t) := by
  obtain ⟨hc, hp, hth, hsa, hsi, hpid, hef, hr⟩ := h
  simp only [op_reset, resetCore, fetchByte, hc, hp, hth]
  split_ifs <;>
    first
      | exact ⟨⟨rfl, rfl, rfl, hsa, hsi, hpid, hef, hr⟩, fun i _ => ⟨rfl, rfl⟩⟩
      | rfl

theorem agree_invalid (tid opcode : Nat) (s t : VMState) (h : StAgree s t) :
    stepAgree s.regs t.regs (op_invalid tid opcode s) (op_invalid tid opcode t) := by
  obtain ⟨hc, hp, hth, hsa, hsi, hpid, hef, hr⟩ := h
  simp only [op_invalid, hth]
  rfl

set_option maxHeartbeats 2000000 in
theorem agree_bypass (s t : VMState) (h : StAgree s t) :
    StAgree (cjmpBypass s) (cjmpBypass t) ∧
      ∀ i, 256 ≤ i → (cjmpBypass s).regs i = s.regs i ∧ (cjmpBypass t).regs i = t.regs i := by
  obtain ⟨hc, hp, hth, hsa, hsi, hpid, hef, hr⟩ := h
  constructor
  · refine ⟨hc, hp, hth, hsa, hsi, hpid, hef, ?_⟩
    intro i hi
    simp only [cjmpBypass, updReg, Function.update_apply]
    split_ifs <;>
      first
        | rfl
        | exact hr i hi
        | exact hr _ (by norm_num)
  · intro i hi
    constructor <;>
      (simp only [cjmpBypass, updReg, Function.update_apply]
       split_ifs <;> first | rfl | (exfalso; omega))

theorem agree_cjmpCore (compare rg1 rg2 op1 op2 loc : Nat) (s t : VMState) (h : StAgree s t) :
    stepAgree s.regs t.regs
      (cjmpCore compare rg1 rg2 op1 op2 loc s) (cjmpCore compare rg1 rg2 op1 op2 loc t) := by
  obtain ⟨hc, hp, hth, hsa, hsi, hpid, hef, hr⟩ := h
  by_cases hbyp : compare = 0 ∧ rg1 = 0x29 ∧ rg2 = 0x1e ∧ s.partId = 0x3e80
  · have hbyp' : compare = 0 ∧ rg1 = 0x29 ∧ rg2 = 0x1e ∧ t.partId = 0x3e80 :=
      ⟨hbyp.1, hbyp.2.1, hbyp.2.2.1, hpid ▸ hbyp.2.2.2⟩
    obtain ⟨⟨bc, bp, bth, bsa, bsi, bpid, bef, br⟩, bhigh⟩ :=
      agree_bypass s t ⟨hc, hp, hth, hsa, hsi, hpid, hef, hr⟩
    simp only [cjmpCore, if_pos hbyp, if_pos hbyp']
    exact ⟨⟨bc, rfl, bth, bsa, bsi, bpid, bef, br⟩, bhigh⟩
  · have hbyp2 : ¬(compare = 0 ∧ rg1 = 0x29 ∧ rg2 = 0x1e ∧ t.partId = 0x3e80) := by
      rw [← hpid]; exact hbyp
    unfold cjmpCore
    rw [if_neg hbyp, if_neg hbyp2]
    split_ifs <;>
      first
        | rfl
        | exact ⟨⟨hc, hp, hth, hsa, hsi, hpid, hef, hr⟩, fun i _ => ⟨rfl, rfl⟩⟩
        | exact ⟨⟨hc, rfl, hth, hsa, hsi, hpid, hef, hr⟩, fun i _ => ⟨rfl, rfl⟩⟩

theorem agree_cjmp (s t : VMState) (h : StAgree s t) :
    stepAgree s.regs t.regs (op_cjmp s) (op_cjmp t) := by
  obtain ⟨hc, hp, hth, hsa, hsi, hpid, hef, hr⟩ := h
  have hru : ∀ x, s.regs (u8 x) = t.regs (u8 x) := fun x => hr _ (u8_lt x)
  simp only [op_cjmp, fetchByte, fetchWord, hc, hp, hru]
  split_ifs <;>
    exact agree_cjmpCore _ _ _ _ _ _ _ _
      ⟨rfl, rfl, hth, hsa, hsi, hpid, hef, fun i hi => hr i hi⟩

/-- Claim C9: every register-bank access during instruction execution
uses an index below 256 (a single fetched byte or a fixed reserved
index), so execution can neither read nor write outside the 256-entry
register array: on two pre-states that agree on registers 0–255 (and
everything else), any instruction yields identical fatal errors or
post-states that again agree on registers 0–255; registers at indices
≥ 256 are never consulted and never modified. -/
theorem register_bank_access_bounded (tid opcode : Nat) (s t : VMState) (h : StAgree s t) :
    stepAgree s.regs t.regs (execInstr tid opcode s) (execInstr tid opcode t) := by
  cases hd : dispatch opcode <;> simp only [execInstr, hd]
  case movi => exact agree_movi s t h
  case movr => exact agree_movr s t h
  case addr => exact agree_addr s t h
  case addi => exact agree_addi s t h
  case call => exact agree_call s t h
  case ret => exact agree_ret s t h
  case yieldOp => exact agree_yieldOp tid s t h
  case jump => exact agree_jump s t h
  case init => exact agree_init s t h
  case djnz => exact agree_djnz s t h
  case cjmp => exact agree_cjmp s t h
  case palette => exact agree_palette s t h
  case reset => exact agree_reset s t h
  case page => exact agree_page s t h
  case fill => exact agree_fill s t h
  case copy => exact agree_copy s t h
  case blit => exact agree_blit s t h
  case kill => exact agree_kill tid s t h
  case print => exact agree_print s t h
  case subr => exact agree_subr s t h
  case andi => exact agree_andi s t h
  case iori => exact agree_iori s t h
  case shli => exact agree_shli s t h
  case shri => exact agree_shri s t h
  case sound => exact agree_sound s t h
  case loadres => exact agree_loadres s t h
  case music => exact agree_music s t h
  case invalid => exact agree_invalid tid opcode s t h
  case poly1 => exact agree_poly1 opcode s t h
  case poly2 => exact agree_poly2 opcode s t h

/-- Witness for `register_bank_access_bounded`: the `movi` opcode on a
concrete state compared with itself. -/
theorem register_bank_access_bounded_witness :
    stepAgree exState.regs exState.regs (execInstr 0 0 exState) (execInstr 0 0 exState) :=
  register_bank_access_bounded 0 0 exState exState
    ⟨rfl, rfl, rfl, rfl, rfl, rfl, rfl, fun _ _ => rfl⟩

-- ---------------------------------------------------------------------------
-- C10: copyPage with equal selectors is a no-op
-- ---------------------------------------------------------------------------

/-- Claim C10: for every page selector and every vertical-scroll value,
`copyPage(dst, src, vscroll)` with `src = dst` short-circuits with
`height = 0` and copies zero bytes: every framebuffer page (and the
three page pointers) is left exactly as it was. -/
theorem copyPage_same_noop (v : VideoState) (p : Nat) (vscroll : Int) :
    copyPage v p p vscroll = v := by
  simp [copyPage]

-- ---------------------------------------------------------------------------
-- C6: spans are clipped before any write
-- ---------------------------------------------------------------------------

theorem renderLinePlain_out (dst src : Page) (x1 x2 yl : Int) (color : Nat)
    (h1 : 0 ≤ x1) (h2 : x1 ≤ x2) (h3 : x2 ≤ 319) (h4 : 0 ≤ yl) (h5 : yl ≤ 199)
    (o : Nat) (ho : 32000 ≤ o) :
    renderLinePlain dst src x1 x2 yl color o = dst o := by
  by_cases hm1 : x1 % 2 = 0 <;> by_cases hm2 : x2 % 2 = 0 <;>
    simp only [renderLinePlain, writeByte, writeRun, Function.update_apply, hm1, hm2,
      ne_eq, not_true_eq_false, not_false_eq_true, if_true, if_false, ite_true, ite_false,
      decide_True, decide_False] <;>
    split_ifs <;> first | rfl | (exfalso; omega)

theorem renderLineVcopy_out (dst src : Page) (x1 x2 yl : Int) (color : Nat)
    (h1 : 0 ≤ x1) (h2 : x1 ≤ x2) (h3 : x2 ≤ 319) (h4 : 0 ≤ yl) (h5 : yl ≤ 199)
    (o : Nat) (ho : 32000 ≤ o) :
    renderLineVcopy dst src x1 x2 yl color o = dst o := by
  by_cases hm1 : x1 % 2 = 0 <;> by_cases hm2 : x2 % 2 = 0 <;>
    simp only [renderLineVcopy, writeByte, copyRun, Function.update_apply, hm1, hm2,
      ne_eq, not_true_eq_false, not_false_eq_true, if_true, if_false, ite_true, ite_false,
      decide_True, decide_False] <;>
    split_ifs <;> first | rfl | (exfalso; omega)

theorem renderLineBlend_out (dst src : Page) (x1 x2 yl : Int) (color : Nat)
    (h1 : 0 ≤ x1) (h2 : x1 ≤ x2) (h3 : x2 ≤ 319) (h4 : 0 ≤ yl) (h5 : yl ≤ 199)
    (o : Nat) (ho : 32000 ≤ o) :
    renderLineBlend dst src x1 x2 yl color o = dst o := by
  by_cases hm1 : x1 % 2 = 0 <;> by_cases hm2 : x2 % 2 = 0 <;>
    simp only [renderLineBlend, writeByte, orRun, Function.update_apply, hm1, hm2,
      ne_eq, not_true_eq_false, not_false_eq_true, if_true, if_false, ite_true, ite_false,
      decide_True, decide_False] <;>
    split_ifs <;> first | rfl | (exfalso; omega)

theorem renderLine_out (dst src : Page) (x1 x2 yl : Int) (color : Nat)
    (h1 : 0 ≤ x1) (h2 : x1 ≤ x2) (h3 : x2 ≤ 319) (h4 : 0 ≤ yl) (h5 : yl ≤ 199)
    (o : Nat) (ho : 32000 ≤ o) :
    renderLine dst src x1 x2 yl color o = dst o := by
  unfold renderLine
  split_ifs
  · exact renderLinePlain_out dst src x1 x2 yl color h1 h2 h3 h4 h5 o ho
  · exact renderLineVcopy_out dst src x1 x2 yl color h1 h2 h3 h4 h5 o ho
  · exact renderLineBlend_out dst src x1 x2 yl color h1 h2 h3 h4 h5 o ho

theorem drawPoint_out (dst src : Page) (xp yp : Int) (color : Nat)
    (o : Nat) (ho : 32000 ≤ o) :
    drawPoint dst src xp yp color o = dst o := by
  unfold drawPoint
  split_ifs with h
  · rfl
  · exact renderLine_out dst src xp xp yp color (by omega) le_rfl (by omega) (by omega)
      (by omega) o ho

theorem drawLine_out (dst src : Page) (a b yl : Int) (color : Nat)
    (o : Nat) (ho : 32000 ≤ o) :
    drawLine dst src a b yl color o = dst o := by
  unfold drawLine
  split_ifs <;> first
    | rfl
    | (apply renderLine_out <;> omega)

theorem scanLoop_out (src : Page) (color step1 step2 : Nat) :
    ∀ (n : Nat) (dst : Page) (xa xb : Nat) (yl : Int) (o : Nat), 32000 ≤ o →
      (scanLoop src color step1 step2 n dst xa xb yl).1 o = dst o := by
  intro n
  induction n with
  | zero => intro dst xa xb yl o ho; rfl
  | succ n ih =>
      intro dst xa xb yl o ho
      simp only [scanLoop]
      rw [ih _ _ _ _ o ho]
      exact drawLine_out _ _ _ _ _ _ o ho

theorem fillLoop_out (src : Page) (color : Nat) (pts : List Pt) :
    ∀ (fuel count i j xa xb : Nat) (yl : Int) (dst : Page) (o : Nat), 32000 ≤ o →
      fillLoop src color pts fuel count i j xa xb yl dst o = dst o := by
  intro fuel
  induction fuel with
  | zero => intros; rfl
  | succ fuel ih =>
      intro count i j xa xb yl dst o ho
      simp only [fillLoop]
      split_ifs
      · rfl
      · exact ih _ _ _ _ _ _ _ o ho
      · rw [ih _ _ _ _ _ _ _ o ho]
        exact scanLoop_out src color _ _ _ dst _ _ _ o ho

/-- Claim C6: a leaf polygon whose zoom-scaled bounding box (centred on
the target position, `int16_t` arithmetic) lies entirely outside the
visible region is rejected before any write, leaving the page
untouched; and in general every span write is clipped to the visible
320×200 region first, so no byte outside the 32000-byte page (offsets
≥ 32000 = 200 lines × 160 bytes) is ever touched, for any polygon,
position, color and pages. -/
theorem fillPolygon_clipped (poly : Polygon) (posx posy : Int) (color : Nat)
    (dst src : Page) :
    ((wrap16s (posx - (poly.bbw / 2 : Nat)) > 319 ∨
      wrap16s (posx + (poly.bbw / 2 : Nat)) < 0 ∨
      wrap16s (posy - (poly.bbh / 2 : Nat)) > 199 ∨
      wrap16s (posy + (poly.bbh / 2 : Nat)) < 0) →
        fillPolygon poly posx posy color dst src = dst) ∧
    ∀ o, 32000 ≤ o → fillPolygon poly posx posy color dst src o = dst o := by
  constructor
  · intro h
    unfold fillPolygon
    rw [if_pos h]
  · intro o ho
    unfold fillPolygon
    split_ifs
    · rfl
    · exact drawPoint_out dst src posx posy color o ho
    · exact fillLoop_out src color poly.points _ _ _ _ _ _ _ dst o ho

/-- Witness for `fillPolygon_clipped`: a polygon drawn at x = 1000
(outside the region) leaves the zero page untouched, and a polygon
drawn at (10, 10) never touches byte offset 32000. -/
theorem fillPolygon_clipped_witness :
    fillPolygon c5poly 1000 0 5 zeroPage zeroPage = zeroPage ∧
    fillPolygon c5point 10 10 5 zeroPage zeroPage 32000 = zeroPage 32000 :=
  ⟨(fillPolygon_clipped c5poly 1000 0 5 zeroPage zeroPage).1 (by decide),
   (fillPolygon_clipped c5point 10 10 5 zeroPage zeroPage).2 32000 le_rfl⟩

-- ---------------------------------------------------------------------------
-- C5: the degenerate one-pixel polygon
-- ---------------------------------------------------------------------------

theorem nib_low (d : Nat) (h : d < 256) : d &&& 0x0f = d % 16 := by
  interval_cases d <;> decide

theorem nib_high (d : Nat) (h : d < 256) : d &&& 0xf0 = d / 16 * 16 := by
  interval_cases d <;> decide

theorem lor_nib (a b : Nat) (ha : a < 16) (hb : b < 16) : (a * 16) ||| b = a * 16 + b := by
  interval_cases a <;> interval_cases b <;> decide

theorem and15_lt (k : Nat) : k &&& 0x0f < 16 := Nat.lt_succ_of_le Nat.and_le_right

theorem shl4 (k : Nat) : k <<< 4 = k * 16 := Nat.shiftLeft_eq k 4

theorem blend_low_keep (d : Nat) (h : d < 256) : ((d &&& 0xf7) ||| 0x08) / 16 = d / 16 := by
  interval_cases d <;> decide

theorem blend_high_keep (d : Nat) (h : d < 256) : ((d &&& 0x7f) ||| 0x80) % 16 = d % 16 := by
  interval_cases d <;> decide

theorem c2_low (color : Nat) :
    (((color &&& 0x0f) <<< 4) ||| (color &&& 0x0f)) &&& 0x0f = color &&& 0x0f := by
  have hk : color &&& 0x0f < 16 := and15_lt color
  rw [shl4, lor_nib _ _ hk hk, nib_low _ (by omega)]
  omega

theorem c2_high (color : Nat) :
    (((color &&& 0x0f) <<< 4) ||| (color &&& 0x0f)) &&& 0xf0 = (color &&& 0x0f) * 16 := by
  have hk : color &&& 0x0f < 16 := and15_lt color
  rw [shl4, lor_nib _ _ hk hk, nib_high _ (by omega)]
  omega

theorem byte_low_write (d v : Nat) (hd : d < 256) (hv : v < 16) :
    ((d &&& 0xf0) ||| v) / 16 = d / 16 ∧ ((d &&& 0xf0) ||| v) = d / 16 * 16 + v := by
  rw [nib_high d hd, lor_nib _ _ (by omega) hv]
  exact ⟨by omega, rfl⟩

theorem byte_high_write (d v : Nat) (hd : d < 256) (hv : v < 16) :
    ((d &&& 0x0f) ||| v * 16) % 16 = d % 16 ∧ ((d &&& 0x0f) ||| v * 16) = v * 16 + d % 16 := by
  rw [nib_low d hd, Nat.lor_comm, lor_nib _ _ hv (by omega)]
  exact ⟨by omega, by omega⟩

theorem renderLinePlain_point (dst src : Page) (x y : Int) (color : Nat)
    (hx0 : 0 ≤ x) (hx1 : x ≤ 319) (hy0 : 0 ≤ y) (hy1 : y ≤ 199) :
    renderLinePlain dst src x x y color =
      if x % 2 = 0 then
        writeByte dst (y * 160 + x / 2).toNat
          ((dst (y * 160 + x / 2).toNat &&& 0x0f) |||
            ((((color &&& 0x0f) <<< 4) ||| (color &&& 0x0f)) &&& 0xf0))
      else
        writeByte dst (y * 160 + x / 2).toNat
          ((dst (y * 160 + x / 2).toNat &&& 0xf0) |||
            ((((color &&& 0x0f) <<< 4) ||| (color &&& 0x0f)) &&& 0x0f)) := by
  have hW : (((x / 2 - x / 2 + 1) % 65536).toNat + 65535) % 65536 = 0 := by omega
  by_cases hm : x % 2 = 0
  · rw [if_pos hm]
    funext o
    simp only [renderLinePlain, writeByte, writeRun, Function.update_apply, hm,
      ne_eq, not_true_eq_false, not_false_eq_true, if_true, if_false, ite_true, ite_false,
      hW, Nat.add_zero]
    split_ifs <;>
      first
        | rfl
        | (exfalso; omega)
        | (subst_vars; first | rfl | (exfalso; omega))
  · rw [if_neg hm]
    funext o
    simp only [renderLinePlain, writeByte, writeRun, Function.update_apply, hm,
      ne_eq, not_true_eq_false, not_false_eq_true, if_true, if_false, ite_true, ite_false,
      hW, Nat.add_zero]
    split_ifs <;>
      first
        | rfl
        | (exfalso; omega)
        | (subst_vars; first | rfl | (exfalso; omega))

theorem renderLineVcopy_point (dst src : Page) (x y : Int) (color : Nat)
    (hx0 : 0 ≤ x) (hx1 : x ≤ 319) (hy0 : 0 ≤ y) (hy1 : y ≤ 199) :
    renderLineVcopy dst src x x y color =
      if x % 2 = 0 then
        writeByte dst (y * 160 + x / 2).toNat
          ((dst (y * 160 + x / 2).toNat &&& 0x0f) |||
            (src (y * 160 + x / 2).toNat &&& 0xf0))
      else
        writeByte dst (y * 160 + x / 2).toNat
          ((dst (y * 160 + x / 2).toNat &&& 0xf0) |||
            (src (y * 160 + x / 2).toNat &&& 0x0f)) := by
  have hW : (((x / 2 - x / 2 + 1) % 65536).toNat + 65535) % 65536 = 0 := by omega
  by_cases hm : x % 2 = 0
  · rw [if_pos hm]
    funext o
    simp only [renderLineVcopy, writeByte, copyRun, Function.update_apply, hm,
      ne_eq, not_true_eq_false, not_false_eq_true, if_true, if_false, ite_true, ite_false,
      hW, Nat.add_zero]
    split_ifs <;>
      first
        | rfl
        | (exfalso; omega)
        | (subst_vars; first | rfl | (exfalso; omega))
  · rw [if_neg hm]
    funext o
    simp only [renderLineVcopy, writeByte, copyRun, Function.update_apply, hm,
      ne_eq, not_true_eq_false, not_false_eq_true, if_true, if_false, ite_true, ite_false,
      hW, Nat.add_zero]
    split_ifs <;>
      first
        | rfl
        | (exfalso; omega)
        | (subst_vars; first | rfl | (exfalso; omega))

theorem renderLineBlend_point (dst src : Page) (x y : Int) (color : Nat)
    (hx0 : 0 ≤ x) (hx1 : x ≤ 319) (hy0 : 0 ≤ y) (hy1 : y ≤ 199) :
    renderLineBlend dst src x x y color =
      if x % 2 = 0 then
        writeByte dst (y * 160 + x / 2).toNat
          ((dst (y * 160 + x / 2).toNat &&& 0x7f) ||| 0x80)
      else
        writeByte dst (y * 160 + x / 2).toNat
          ((dst (y * 160 + x / 2).toNat &&& 0xf7) ||| 0x08) := by
  have hW : (((x / 2 - x / 2 + 1) % 65536).toNat + 65535) % 65536 = 0 := by omega
  by_cases hm : x % 2 = 0
  · rw [if_pos hm]
    funext o
    simp only [renderLineBlend, writeByte, orRun, Function.update_apply, hm,
      ne_eq, not_true_eq_false, not_false_eq_true, if_true, if_false, ite_true, ite_false,
      hW, Nat.add_zero]
    split_ifs <;>
      first
        | rfl
        | (exfalso; omega)
        | (subst_vars; first | rfl | (exfalso; omega))
  · rw [if_neg hm]
    funext o
    simp only [renderLineBlend, writeByte, orRun, Function.update_apply, hm,
      ne_eq, not_true_eq_false, not_false_eq_true, if_true, if_false, ite_true, ite_false,
      hW, Nat.add_zero]
    split_ifs <;>
      first
        | rfl
        | (exfalso; omega)
        | (subst_vars; first | rfl | (exfalso; omega))

theorem renderLine_point (dst src : Page) (x y : Int) (color : Nat)
    (hx0 : 0 ≤ x) (hx1 : x ≤ 319) (hy0 : 0 ≤ y) (hy1 : y ≤ 199)
    (hdb : ∀ o, dst o < 256) (hsb : ∀ o, src o < 256) :
    (∀ o, o ≠ (y * 160 + x / 2).toNat → renderLine dst src x x y color o = dst o) ∧
    (x % 2 = 0 → renderLine dst src x x y color ((y * 160 + x / 2).toNat) % 16 =
      dst ((y * 160 + x / 2).toNat) % 16) ∧
    (x % 2 = 1 → renderLine dst src x x y color ((y * 160 + x / 2).toNat) / 16 =
      dst ((y * 160 + x / 2).toNat) / 16) ∧
    (color < 0x10 → x % 2 = 0 → renderLine dst src x x y color ((y * 160 + x / 2).toNat) =
      (color &&& 0x0f) * 16 + dst ((y * 160 + x / 2).toNat) % 16) ∧
    (color < 0x10 → x % 2 = 1 → renderLine dst src x x y color ((y * 160 + x / 2).toNat) =
      dst ((y * 160 + x / 2).toNat) / 16 * 16 + (color &&& 0x0f)) := by
  by_cases hp : color < 0x10
  · have hrl : renderLine dst src x x y color = renderLinePlain dst src x x y color := by
      unfold renderLine
      rw [if_pos hp]
    rw [hrl, renderLinePlain_point dst src x y color hx0 hx1 hy0 hy1]
    refine ⟨?_, ?_, ?_, ?_, ?_⟩
    · intro o ho
      by_cases hm : x % 2 = 0
      · rw [if_pos hm, writeByte, Function.update_noteq ho]
      · rw [if_neg hm, writeByte, Function.update_noteq ho]
    · intro hm
      rw [if_pos hm, writeByte, Function.update_same, c2_high]
      exact (byte_high_write _ _ (hdb _) (and15_lt _)).1
    · intro hm
      have hm' : ¬x % 2 = 0 := by omega
      rw [if_neg hm', writeByte, Function.update_same, c2_low]
      exact (byte_low_write _ _ (hdb _) (and15_lt _)).1
    · intro _ hm
      rw [if_pos hm, writeByte, Function.update_same, c2_high]
      exact (byte_high_write _ _ (hdb _) (and15_lt _)).2
    · intro _ hm
      have hm' : ¬x % 2 = 0 := by omega
      rw [if_neg hm', writeByte, Function.update_same, c2_low]
      exact (byte_low_write _ _ (hdb _) (and15_lt _)).2
  · by_cases hv : 0x10 < color
    · have hrl : renderLine dst src x x y color = renderLineVcopy dst src x x y color := by
        unfold renderLine
        rw [if_neg hp, if_pos hv]
      rw [hrl, renderLineVcopy_point dst src x y color hx0 hx1 hy0 hy1]
      refine ⟨?_, ?_, ?_, fun hcl => absurd hcl hp, fun hcl => absurd hcl hp⟩
      · intro o ho
        by_cases hm : x % 2 = 0
        · rw [if_pos hm, writeByte, Function.update_noteq ho]
        · rw [if_neg hm, writeByte, Function.update_noteq ho]
      · intro hm
        rw [if_pos hm, writeByte, Function.update_same, nib_high _ (hsb _)]
        exact (byte_high_write _ _ (hdb _) (by have := hsb ((y * 160 + x / 2).toNat); omega)).1
      · intro hm
        have hm' : ¬x % 2 = 0 := by omega
        rw [if_neg hm', writeByte, Function.update_same, nib_low _ (hsb _)]
        exact (byte_low_write _ _ (hdb _) (by have := hsb ((y * 160 + x / 2).toNat); omega)).1
    · have hrl : renderLine dst src x x y color = renderLineBlend dst src x x y color := by
        unfold renderLine
        rw [if_neg hp, if_neg hv]
      rw [hrl, renderLineBlend_point dst src x y color hx0 hx1 hy0 hy1]
      refine ⟨?_, ?_, ?_, fun hcl => absurd hcl hp, fun hcl => absurd hcl hp⟩
      · intro o ho
        by_cases hm : x % 2 = 0
        · rw [if_pos hm, writeByte, Function.update_noteq ho]
        · rw [if_neg hm, writeByte, Function.update_noteq ho]
      · intro hm
        rw [if_pos hm, writeByte, Function.update_same]
        exact blend_high_keep _ (hdb _)
      · intro hm
        have hm' : ¬x % 2 = 0 := by omega
        rw [if_neg hm', writeByte, Function.update_same]
        exact blend_low_keep _ (hdb _)

/-- Claim C5 counterexample.  The claim covers every bounding box that
is at most 1 in both axes, but the source only degenerates to a pixel
write when one axis is exactly 1: for a 0×0 box with point count 4
(all points at the origin) the zipper fill runs instead and writes
nothing — the page stays all zero, while a one-pixel write of color 5
at (10, 10) would have set byte 1605 to 80. -/
theorem fillPolygon_degenerate_counterexample :
    fillPolygon c5poly 10 10 5 zeroPage zeroPage = zeroPage ∧
    (5 &&& 0x0f) * 16 + zeroPage (((10 : Int) * 160 + (10 : Int) / 2).toNat) % 16 = 80 ∧
    zeroPage (((10 : Int) * 160 + (10 : Int) / 2).toNat) = 0 ∧ (80 : Nat) ≠ 0 :=
  ⟨rfl, by decide, rfl, by decide⟩

/-- Claim C5 (amended): for a leaf polygon with point count exactly 4
whose zoom-scaled bounding box collapses to one pixel in an axis
(width 1 and height ≤ 1, or height 1 and width ≤ 1 — not 0×0, which
takes the generic fill path), rendering at a position inside the
visible 320×200 region writes exactly one 4-bit nibble at that
position: every other byte of the page is untouched, within the target
byte the other pixel's nibble is preserved (for all three line-fill
strategies), and for the plain strategy (color < 0x10) the target
nibble receives the color; rendering at a position outside the visible
region writes nothing. -/
theorem fillPolygon_point (poly : Polygon) (posx posy : Int) (color : Nat) (dst src : Page)
    (hc4 : poly.count = 4)
    (hbb : (poly.bbw = 1 ∧ poly.bbh ≤ 1) ∨ (poly.bbh = 1 ∧ poly.bbw ≤ 1))
    (hpx : -32768 ≤ posx ∧ posx < 32768) (hpy : -32768 ≤ posy ∧ posy < 32768)
    (hdb : ∀ o, dst o < 256) (hsb : ∀ o, src o < 256) :
    ((0 ≤ posx ∧ posx ≤ 319 ∧ 0 ≤ posy ∧ posy ≤ 199) →
      (∀ o, o ≠ (posy * 160 + posx / 2).toNat →
        fillPolygon poly posx posy color dst src o = dst o) ∧
      (posx % 2 = 0 →
        fillPolygon poly posx posy color dst src ((posy * 160 + posx / 2).toNat) % 16 =
          dst ((posy * 160 + posx / 2).toNat) % 16) ∧
      (posx % 2 = 1 →
        fillPolygon poly posx posy color dst src ((posy * 160 + posx / 2).toNat) / 16 =
          dst ((posy * 160 + posx / 2).toNat) / 16) ∧
      (color < 0x10 → posx % 2 = 0 →
        fillPolygon poly posx posy color dst src ((posy * 160 + posx / 2).toNat) =
          (color &&& 0x0f) * 16 + dst ((posy * 160 + posx / 2).toNat) % 16) ∧
      (color < 0x10 → posx % 2 = 1 →
        fillPolygon poly posx posy color dst src ((posy * 160 + posx / 2).toNat) =
          dst ((posy * 160 + posx / 2).toNat) / 16 * 16 + (color &&& 0x0f))) ∧
    (¬(0 ≤ posx ∧ posx ≤ 319 ∧ 0 ≤ posy ∧ posy ≤ 199) →
      fillPolygon poly posx posy color dst src = dst) := by
  have hbw : poly.bbw / 2 = 0 := by rcases hbb with ⟨h1, h2⟩ | ⟨h1, h2⟩ <;> omega
  have hbh : poly.bbh / 2 = 0 := by rcases hbb with ⟨h1, h2⟩ | ⟨h1, h2⟩ <;> omega
  have hwx : wrap16s posx = posx := by unfold wrap16s; omega
  have hwy : wrap16s posy = posy := by unfold wrap16s; omega
  have hred : fillPolygon poly posx posy color dst src =
      if posx > 319 ∨ posx < 0 ∨ posy > 199 ∨ posy < 0 then dst
      else drawPoint dst src posx posy color := by
    unfold fillPolygon
    simp only [hbw, hbh, hc4, Nat.cast_zero, sub_zero, add_zero, hwx, hwy]
    by_cases hA : posx > 319 ∨ posx < 0 ∨ posy > 199 ∨ posy < 0
    · rw [if_pos hA, if_pos hA]
    · rw [if_neg hA, if_neg hA, if_pos ⟨trivial, hbb⟩]
  constructor
  · intro hin
    have hred2 : fillPolygon poly posx posy color dst src =
        renderLine dst src posx posx posy color := by
      rw [hred, if_neg (by omega)]
      unfold drawPoint
      rw [if_neg (by omega)]
    rw [hred2]
    exact renderLine_point dst src posx posy color (by omega) (by omega) (by omega) (by omega)
      hdb hsb
  · intro hout
    rw [hred, if_pos (by omega)]

/-- Witness for `fillPolygon_point`: a 1×1 polygon of color 5 drawn at
(10, 10) on the zero page leaves byte 0 untouched and paints the high
nibble of byte 1605. -/
theorem fillPolygon_point_witness :
    fillPolygon c5point 10 10 5 zeroPage zeroPage 0 = zeroPage 0 ∧
    fillPolygon c5point 10 10 5 zeroPage zeroPage (((10 : Int) * 160 + (10 : Int) / 2).toNat) =
      (5 &&& 0x0f) * 16 + zeroPage (((10 : Int) * 160 + (10 : Int) / 2).toNat) % 16 := by
  have T := fillPolygon_point c5point 10 10 5 zeroPage zeroPage rfl
    (Or.inl ⟨rfl, by decide⟩) (by constructor <;> decide) (by constructor <;> decide)
    (fun _ => by norm_num [zeroPage]) (fun _ => by norm_num [zeroPage])
  have hin := T.1 (by refine ⟨by decide, by decide, by decide, by decide⟩)
  exact ⟨hin.1 0 (by decide), hin.2.2.2.1 (by decide) (by decide)⟩

end AW
